import Mathlib

/-!
Verification of the code-structure extraction and merge engine of the
pykage2dkg repository against its natural-language specification.

The Python sources under src/extractor are shallowly embedded: each
analyzer class becomes a Lean function over an explicit abstract syntax
tree (the sublanguage of Python needed by the analyzed fixtures), and
each Python dict/set becomes an insertion-ordered association list with
set-insert semantics.  External libraries (the ast parser itself, parso,
libcst, subprocess tools) enter as explicit oracle parameters: a parse
either yields a module statement list or an error string, exactly the
two outcomes the Python code distinguishes.
-/

namespace Pykage

/-- Set-insert on an insertion-ordered duplicate-free list: models adding
an element to a Python set (membership is what matters; we keep first
insertion order as the canonical enumeration). -/
def addNew (xs : List String) (x : String) : List String :=
  if x ∈ xs then xs else xs ++ [x]

/-- Union of a set-list with another list, models set.update. -/
def addAllNew (xs : List String) (ys : List String) : List String :=
  ys.foldl addNew xs

/-- Models defaultdict(set): add value v to the set stored at key k,
creating the entry on first use, preserving key insertion order. -/
def addToSetMap (m : List (String × List String)) (k v : String) :
    List (String × List String) :=
  match m with
  | [] => [(k, [v])]
  | (k2, vs) :: rest =>
      if k2 = k then (k2, addNew vs v) :: rest else (k2, vs) :: addToSetMap rest k v

/-- Lookup in an association list, empty set when absent (defaultdict read). -/
def lookupSetMap (m : List (String × List String)) (k : String) : List String :=
  match m with
  | [] => []
  | (k2, vs) :: rest => if k2 = k then vs else lookupSetMap rest k

/-- Models dict[k] = v: overwrite in place keeping key position, else append. -/
def dictInsert {α : Type} (m : List (String × α)) (k : String) (v : α) :
    List (String × α) :=
  match m with
  | [] => [(k, v)]
  | (k2, w) :: rest => if k2 = k then (k2, v) :: rest else (k2, w) :: dictInsert rest k v

/-- Models defaultdict(int) increment. -/
def dictIncr (m : List (String × Nat)) (k : String) : List (String × Nat) :=
  match m with
  | [] => [(k, 1)]
  | (k2, n) :: rest => if k2 = k then (k2, n + 1) :: rest else (k2, n) :: dictIncr rest k

/-! ## The embedded Python abstract syntax tree

The sublanguage covers the node kinds the extractors inspect: names,
attribute access, calls (with positional-argument list, keyword count and
line), constants, binary operations, list and dict literals, and a
catch-all for other expressions carrying the node-kind tag and source
text.  Statements cover (async) function definitions, class definitions,
assignments, augmented assignments, returns, and expression statements. -/

inductive PyExpr where
  | name (id : String)
  | attribute (value : PyExpr) (attr : String)
  | call (func : PyExpr) (args : List PyExpr) (kwCount : Nat) (line : Nat)
  | constant (value : String) (valueType : String)
  | binop (op : String) (left : PyExpr) (right : PyExpr)
  | listLit (elts : List PyExpr)
  | dictLit (keyCount : Nat)
  | other (nodeType : String) (src : String)
deriving Repr

/-- A formal parameter: its name and optional annotation (ast.arg). -/
structure PyArg where
  arg : String
  ann : Option PyExpr
deriving Repr

inductive PyStmt where
  | funcDef (name : String) (args : List PyArg) (decorators : List PyExpr)
      (body : List PyStmt) (isAsync : Bool) (line : Nat)
      (docstring : Option String) (src : String)
  | classDef (name : String) (body : List PyStmt) (line : Nat)
  | assign (targets : List PyExpr) (value : PyExpr) (line : Nat)
  | augAssign (target : PyExpr) (op : String) (value : PyExpr) (line : Nat)
  | ret (value : Option PyExpr) (line : Nat)
  | exprStmt (value : PyExpr) (line : Nat)
deriving Repr

/-- Python class name of an embedded expression node (type(node).__name__). -/
def nodeTypeName : PyExpr → String
  | .name _ => "Name"
  | .attribute _ _ => "Attribute"
  | .call _ _ _ _ => "Call"
  | .constant _ _ => "Constant"
  | .binop _ _ _ => "BinOp"
  | .listLit _ => "List"
  | .dictLit _ => "Dict"
  | .other t _ => t

/-! ## FunctionExtractor (src/extractor/function_extractor.py)

The primary structural extractor: an ast.NodeVisitor whose parent
annotation pass lets visit_FunctionDef distinguish methods (parent is a
ClassDef) from other functions.  visit_ClassDef captures only the direct
FunctionDef/AsyncFunctionDef children of the class body as methods and
then generic-visits the body (so nested classes are themselves visited);
visit_FunctionDef and visit_AsyncFunctionDef do not recurse, so nothing
inside a function body is ever visited. -/

/-- A Function entry as emitted by FunctionExtractor.function_to_json. -/
structure FuncEntry where
  name : String
  text : String
  description : String
  decorators : List String
  calls : List String
  isAsync : Bool
  inClass : Option String
deriving Repr, DecidableEq

/-- A Class entry as emitted by FunctionExtractor.visit_ClassDef. -/
structure ClassEntry where
  name : String
  hasPart : List FuncEntry
deriving Repr, DecidableEq

/-- Decorator resolution in function_to_json: bare name, attribute final
component, else the decorator source text (ast.get_source_segment). -/
def decoratorName : PyExpr → String
  | .name id => id
  | .attribute _ a => a
  | e => match e with
         | .other _ src => src
         | _ => nodeTypeName e

/-- Target contributed by a single ast.Call node in function_to_json:
attribute calls yield the attribute name, bare-name calls the identifier,
anything else contributes nothing. -/
def callHeadTargets : PyExpr → List String
  | .attribute _ a => [a]
  | .name id => [id]
  | _ => []

mutual
/-- Call targets recorded by function_to_json: for every ast.Call reachable
under the node (ast.walk), the attribute name for attribute calls, the
identifier for bare-name calls.  Collection order is irrelevant because the
Python code passes the list through set(); we deduplicate afterwards. -/
def exprCallTargets : PyExpr → List String
  | .name _ => []
  | .constant _ _ => []
  | .dictLit _ => []
  | .other _ _ => []
  | .attribute v _ => exprCallTargets v
  | .binop _ l r => exprCallTargets l ++ exprCallTargets r
  | .listLit es => exprsCallTargets es
  | .call f args _ _ => callHeadTargets f ++ exprCallTargets f ++ exprsCallTargets args

/-- Call targets of a list of expressions, in order. -/
def exprsCallTargets : List PyExpr → List String
  | [] => []
  | e :: es => exprCallTargets e ++ exprsCallTargets es
end

mutual
/-- Call targets of every ast.Call in the full subtree of one statement. -/
def stmtCallTargets : PyStmt → List String
  | .funcDef _ args decs body _ _ _ _ =>
      decs.foldl (fun acc e => acc ++ exprCallTargets e) []
        ++ args.foldl (fun acc a => acc ++ (a.ann.map exprCallTargets).getD []) []
        ++ stmtsCallTargets body
  | .classDef _ body _ => stmtsCallTargets body
  | .assign ts v _ =>
      ts.foldl (fun acc e => acc ++ exprCallTargets e) [] ++ exprCallTargets v
  | .augAssign t _ v _ => exprCallTargets t ++ exprCallTargets v
  | .ret v _ => (v.map exprCallTargets).getD []
  | .exprStmt v _ => exprCallTargets v

def stmtsCallTargets : List PyStmt → List String
  | [] => []
  | s :: rest => stmtCallTargets s ++ stmtsCallTargets rest
end

/-- Deduplicate keeping first occurrence: canonical enumeration of the
Python set produced by list(set(xs)). -/
def dedupFirst (xs : List String) : List String :=
  xs.foldl addNew []

/-- FunctionExtractor.function_to_json.  The text field models
ast.get_source_segment via the source span stored on the node; the
docstring field models ast.get_docstring. -/
def function_to_json (name : String) (args : List PyArg) (decorators : List PyExpr)
    (body : List PyStmt) (docstring : Option String) (src : String)
    (class_name : Option String) (is_async : Bool) : FuncEntry :=
  { name := name
    text := src
    description := docstring.getD ""
    decorators := dedupFirst (decorators.map decoratorName)
    calls := dedupFirst
      (decorators.foldl (fun acc e => acc ++ exprCallTargets e) []
        ++ args.foldl (fun acc a => acc ++ (a.ann.map exprCallTargets).getD []) []
        ++ stmtsCallTargets body)
    isAsync := is_async
    inClass := class_name }

/-- The method entries of one class body: exactly the direct
FunctionDef/AsyncFunctionDef children, each rendered with
class_name set and is_async left at its default False (the code never
passes is_async when building methods). -/
def method_entries (cname : String) (body : List PyStmt) : List FuncEntry :=
  body.filterMap fun s =>
    match s with
    | .funcDef n args decs b _async _ doc src =>
        some (function_to_json n args decs b doc src (some cname) false)
    | _ => none

/-- Accumulated visitor state: classes and functions_outside_classes. -/
structure FEState where
  classes : List ClassEntry
  functions : List FuncEntry
deriving Repr, DecidableEq

mutual
/-- The FunctionExtractor visit of one statement.  The boolean records
whether the parent node is a ClassDef (the parent-link check in
visit_FunctionDef).  A class entry is appended before the class body is
generic-visited; function definitions are never descended into. -/
def feVisitStmt (parentIsClass : Bool) (st : FEState) : PyStmt → FEState
  | .classDef n b _ =>
      let entry : ClassEntry := ⟨n, method_entries n b⟩
      feVisit true { st with classes := st.classes ++ [entry] } b
  | .funcDef n args decs b isAsync _ doc src =>
      if parentIsClass then st
      else { st with functions :=
              st.functions ++ [function_to_json n args decs b doc src none isAsync] }
  | .assign _ _ _ => st
  | .augAssign _ _ _ _ => st
  | .ret _ _ => st
  | .exprStmt _ _ => st

/-- The FunctionExtractor traversal over a statement list. -/
def feVisit (parentIsClass : Bool) (st : FEState) : List PyStmt → FEState
  | [] => st
  | s :: rest => feVisit parentIsClass (feVisitStmt parentIsClass st s) rest
end

/-- FunctionExtractor.extract on an already-parsed module (the parse
itself is the ast.parse oracle; see feExtract). -/
def feExtractModule (ms : List PyStmt) : FEState :=
  feVisit false ⟨[], []⟩ ms

/-- FunctionExtractor.extract: ast.parse may raise; no recovery is
performed here, so a parse error propagates to the caller. -/
def feExtract (pr : Except String (List PyStmt)) : Except String FEState := do
  let ms ← pr
  pure (feExtractModule ms)

/-! Denotational companions used to state provenance theorems. -/

mutual
/-- Class nodes the traversal reaches below one statement: a class node
itself and the ones in its body; never anything inside a function body. -/
def classNodesOfStmt : PyStmt → List (String × List PyStmt)
  | .classDef n b _ => (n, b) :: collectClassNodes b
  | .funcDef _ _ _ _ _ _ _ _ => []
  | .assign _ _ _ => []
  | .augAssign _ _ _ _ => []
  | .ret _ _ => []
  | .exprStmt _ _ => []

/-- All class nodes the traversal reaches in a statement list, in visit
order. -/
def collectClassNodes : List PyStmt → List (String × List PyStmt)
  | [] => []
  | s :: rest => classNodesOfStmt s ++ collectClassNodes rest
end

/-- The class entry built for one reached class node. -/
def classEntryOf (p : String × List PyStmt) : ClassEntry :=
  ⟨p.1, method_entries p.1 p.2⟩

/-- Names of the function definitions appearing directly in a body. -/
def directFuncNames : List PyStmt → List String
  | [] => []
  | .funcDef n _ _ _ _ _ _ _ :: rest => n :: directFuncNames rest
  | _ :: rest => directFuncNames rest

/-! ## CallGraphExtractor (src/extractor/call_graph_extractor.py)

A NodeVisitor keeping current_function and current_class as save/restore
context, an adjacency map call_graph from caller qualified name to the
set of callee names, dictionaries of function and class definitions, and
a flat detailed-call log. -/

/-- One record of the detailed call log (visit_Call). -/
structure CallDetail where
  caller : String
  callee : String
  calleeType : String
  line : Nat
  argumentCount : Nat
  hasKeywordArgs : Bool
  context : Option String
deriving Repr, DecidableEq

/-- One function_definitions value. -/
structure CGFuncInfo where
  name : String
  qualifiedName : String
  inClass : Option String
  line : Nat
  parameters : List String
  isAsync : Bool
deriving Repr, DecidableEq

/-- One class_definitions value: line of definition and method list. -/
structure CGClassInfo where
  line : Nat
  methods : List String
deriving Repr, DecidableEq

/-- The CallGraphExtractor visitor state. -/
structure CGState where
  call_graph : List (String × List String)
  currentFunction : Option String
  currentClass : Option String
  function_definitions : List (String × CGFuncInfo)
  class_definitions : List (String × CGClassInfo)
  call_details : List CallDetail
deriving Repr

/-- The initial CallGraphExtractor state. -/
def cgInit : CGState := ⟨[], none, none, [], [], []⟩

/-- CallGraphExtractor._get_qualified_name. -/
def get_qualified_name (currentClass : Option String) (name : String) : String :=
  match currentClass with
  | some c => c ++ "." ++ name
  | none => name

/-- CallGraphExtractor._extract_call_info: the callee name and type
recorded for a call expression, by the shape of its func node.  A call on
a bare-name receiver records receiver.attr; on a complex receiver only
the final attribute; a call of a call records the fixed name
complex_call; anything else is dropped (None). -/
def extract_call_info : PyExpr → Option (String × String)
  | .name id => some (id, "function")
  | .attribute (.name vid) a => some (vid ++ "." ++ a, "method")
  | .attribute _ a => some (a, "attribute_call")
  | .call _ _ _ _ => some ("complex_call", "chained_call")
  | _ => none

/-- The state update of visit_Call before its generic_visit: when inside
a function, record the edge and append the detailed call record. -/
def cgRecordCall (st : CGState) (func : PyExpr) (argCount kwCount line : Nat) : CGState :=
  match st.currentFunction with
  | none => st
  | some cf =>
      match extract_call_info func with
      | none => st
      | some (calleeName, calleeType) =>
          { st with
            call_graph := addToSetMap st.call_graph cf calleeName
            call_details := st.call_details ++
              [⟨cf, calleeName, calleeType, line, argCount, kwCount > 0, st.currentClass⟩] }

mutual
/-- Expression traversal of CallGraphExtractor: visit_Call records the
edge then generic-visits the func and argument subtrees; every other
expression only generic-visits. -/
def cgVisitExpr (st : CGState) : PyExpr → CGState
  | .name _ => st
  | .constant _ _ => st
  | .dictLit _ => st
  | .other _ _ => st
  | .attribute v _ => cgVisitExpr st v
  | .binop _ l r => cgVisitExpr (cgVisitExpr st l) r
  | .listLit es => cgVisitExprs st es
  | .call f args kw line =>
      cgVisitExprs (cgVisitExpr (cgRecordCall st f args.length kw line) f) args

/-- Expression-list traversal of CallGraphExtractor. -/
def cgVisitExprs (st : CGState) : List PyExpr → CGState
  | [] => st
  | e :: es => cgVisitExprs (cgVisitExpr st e) es
end

mutual
/-- Statement traversal of CallGraphExtractor.  visit_ClassDef saves and
restores current_class and resets the class record; visit_FunctionDef
and visit_AsyncFunctionDef register the definition, append the method to
the enclosing class record, and generic-visit in field order (argument
annotations, body, decorator list) with current_function set; other
statements just generic-visit their expressions. -/
def cgVisitStmt (st : CGState) : PyStmt → CGState
  | .classDef name body _line =>
      let old := st.currentClass
      let st1 := { st with
        currentClass := some name
        class_definitions := dictInsert st.class_definitions name ⟨_line, []⟩ }
      let st2 := cgVisitStmts st1 body
      { st2 with currentClass := old }
  | .funcDef n args decs body isAsync line _doc _src =>
      let qn := get_qualified_name st.currentClass n
      let info : CGFuncInfo := ⟨n, qn, st.currentClass, line, args.map (·.arg), isAsync⟩
      let st1 := { st with
        function_definitions := dictInsert st.function_definitions qn info }
      let st2 :=
        match st1.currentClass with
        | some c =>
            { st1 with class_definitions :=
                (st1.class_definitions.map fun (p : String × CGClassInfo) =>
                  if p.1 = c then (p.1, ⟨p.2.line, p.2.methods ++ [qn]⟩) else p) }
        | none => st1
      let old := st2.currentFunction
      let st3 := { st2 with currentFunction := some qn }
      let st4 := cgVisitExprs st3 (args.filterMap (·.ann))
      let st5 := cgVisitExprs (cgVisitStmts st4 body) decs
      { st5 with currentFunction := old }
  | .assign targets value _ => cgVisitExpr (cgVisitExprs st targets) value
  | .augAssign target _ value _ => cgVisitExpr (cgVisitExpr st target) value
  | .ret v _ =>
      match v with
      | some e => cgVisitExpr st e
      | none => st
  | .exprStmt e _ => cgVisitExpr st e

/-- Statement-list traversal of CallGraphExtractor. -/
def cgVisitStmts (st : CGState) : List PyStmt → CGState
  | [] => st
  | s :: rest => cgVisitStmts (cgVisitStmt st s) rest
end

/-- One relationships entry of the call-graph bundle. -/
structure Relationship where
  caller : String
  callees : List String
  callCount : Nat
  uniqueCallees : Nat
deriving Repr, DecidableEq

/-- The callPatterns analytics of the call-graph bundle.  callDepth is
always left empty by the source. -/
structure CallPatterns where
  mostCalledFunctions : List (String × Nat)
  mostCallingFunctions : List (String × Nat)
  recursiveFunctions : List String
  isolatedFunctions : List String
deriving Repr, DecidableEq

/-- Stable descending sort on the counter value, modelling the stable
Python sorted(..., reverse=True): an element is inserted after every
earlier element whose count is at least its own. -/
def stableSortDesc (xs : List (String × Nat)) : List (String × Nat) :=
  let insert : List (String × Nat) → (String × Nat) → List (String × Nat) :=
    fun sorted x =>
      let rec go : List (String × Nat) → List (String × Nat)
        | [] => [x]
        | y :: ys => if y.2 < x.2 then x :: y :: ys else y :: go ys
      go sorted
  xs.foldl insert []

/-- CallGraphExtractor._analyze_call_patterns. -/
def analyze_call_patterns (st : CGState) : CallPatterns :=
  let call_counts := st.call_details.foldl (fun m d => dictIncr m d.callee) []
  let mostCalled := (stableSortDesc call_counts).take 10
  let caller_counts := st.call_graph.map fun p => (p.1, p.2.length)
  let mostCalling := (stableSortDesc caller_counts).take 10
  let recursive := (st.call_graph.filter fun p => p.1 ∈ p.2).map (·.1)
  let all_called := st.call_graph.foldl (fun acc p => addAllNew acc p.2) []
  let isolated := (st.function_definitions.map (·.1)).filter (· ∉ all_called)
  ⟨mostCalled, mostCalling, recursive, isolated⟩

/-- The complete call-graph bundle. -/
structure CallGraphResult where
  relationships : List Relationship
  callDetails : List CallDetail
  functions : List String
  classes : List String
  totalRelationships : Nat
  callPatterns : Option CallPatterns
  error : Option String
  extractionStatus : String
deriving Repr, DecidableEq

/-- CallGraphExtractor.extract_call_relationships: the parse oracle
either yields the module statements or the error string ast.parse raised
with.  The try/except converts the raised parse failure into the failed
bundle (callPatterns none models the empty dict); nothing else in the
body can raise, so on a successful parse the bundle always carries
extractionStatus success. -/
def extract_call_relationships (pr : Except String (List PyStmt)) : CallGraphResult :=
  match pr with
  | .error e =>
      { relationships := [], callDetails := [], functions := [], classes := []
        totalRelationships := 0, callPatterns := none
        error := some e, extractionStatus := "failed" }
  | .ok ms =>
      let st := cgVisitStmts cgInit ms
      { relationships := st.call_graph.map fun p =>
          ⟨p.1, p.2, p.2.length, p.2.length⟩
        callDetails := st.call_details
        functions := st.function_definitions.map (·.1)
        classes := st.class_definitions.map (·.1)
        totalRelationships := (st.call_graph.map fun p => p.2.length).sum
        callPatterns := some (analyze_call_patterns st)
        error := none
        extractionStatus := "success" }

mutual
/-- The functions_outside_classes entries contributed by one statement
under a given parent kind. -/
def feFuncsOfStmt (parentIsClass : Bool) : PyStmt → List FuncEntry
  | .classDef _ b _ => feFuncs true b
  | .funcDef n args decs b isAsync _ doc src =>
      if parentIsClass then []
      else [function_to_json n args decs b doc src none isAsync]
  | .assign _ _ _ => []
  | .augAssign _ _ _ _ => []
  | .ret _ _ => []
  | .exprStmt _ _ => []

/-- The functions_outside_classes entries contributed by a statement
list under a given parent kind. -/
def feFuncs (parentIsClass : Bool) : List PyStmt → List FuncEntry
  | [] => []
  | s :: rest => feFuncsOfStmt parentIsClass s ++ feFuncs parentIsClass rest
end

/-! ## DataFlowAnalyzer (src/extractor/data_flow_analyzer.py)

A NodeVisitor with only statement-level visitors (there is no visit_Call
or other expression visitor, so expressions are inspected purely through
the value-source classifier).  It tracks, per function, the variable
definitions, the flat flow log, and a global variable-to-dependencies
map. -/

/-- The tagged source descriptor built by _analyze_value_source. -/
inductive ValueSource where
  | variable (name : String)
  | functionCall (function : String) (argumentCount : Nat)
  | constant (value : String) (valueType : String)
  | listLiteral (elementCount : Nat) (elements : List ValueSource)
  | dictLiteral (keyCount : Nat)
  | binaryOperation (operation : String) (left : ValueSource) (right : ValueSource)
  | attributeAccess (object : ValueSource) (attr : String)
  | expression (nodeType : String)
deriving Repr

/-- DataFlowAnalyzer._extract_call_name. -/
def extract_call_name : PyExpr → String
  | .name id => id
  | .attribute _ a => a
  | _ => "unknown_call"

mutual
/-- DataFlowAnalyzer._analyze_value_source: classify where a value comes
from.  Constants are truncated to 50 characters; list literals carry the
classification of their first three elements. -/
def analyze_value_source : PyExpr → ValueSource
  | .name id => .variable id
  | .call f args _ _ => .functionCall (extract_call_name f) args.length
  | .constant v ty => .constant (v.take 50) ty
  | .listLit es => .listLiteral es.length (analyzeFirst es 3)
  | .dictLit k => .dictLiteral k
  | .binop op l r => .binaryOperation op (analyze_value_source l) (analyze_value_source r)
  | .attribute obj a => .attributeAccess (analyze_value_source obj) a
  | .other t _ => .expression t

/-- Classification of the first n elements of a list literal. -/
def analyzeFirst : List PyExpr → Nat → List ValueSource
  | _, 0 => []
  | [], _ => []
  | e :: es, n + 1 => analyze_value_source e :: analyzeFirst es n
end

/-- DataFlowAnalyzer._extract_type_annotation. -/
def extract_type_annot : Option PyExpr → Option String
  | none => none
  | some (.name id) => some id
  | some (.constant v _) => some v
  | some e => some (nodeTypeName e)

/-- One function_variables value. -/
inductive VarInfo where
  | parameter (function : String) (line : Nat) (dataType : Option String)
  | assignment (function : String) (source : ValueSource) (line : Nat)
deriving Repr

/-- One record of the data_flows log, by flow type.  The yield flow kind
of the source is omitted together with yield expressions, which are
outside the embedded sublanguage. -/
inductive DataFlowRec where
  | parameterInput (function : String) (var : String) (line : Nat)
  | assignment (function : String) (var : String) (source : ValueSource) (line : Nat)
  | augmentedAssignment (function : String) (var : String) (operation : String)
      (source : ValueSource) (line : Nat)
  | ret (function : String) (source : ValueSource) (line : Nat)
deriving Repr

/-- The variable of a flow record, where one is recorded. -/
def DataFlowRec.variableOf : DataFlowRec → Option String
  | .parameterInput _ v _ => some v
  | .assignment _ v _ _ => some v
  | .augmentedAssignment _ v _ _ _ => some v
  | .ret _ _ _ => none

/-- The DataFlowAnalyzer visitor state. -/
structure DFState where
  data_flows : List DataFlowRec
  currentFunction : Option String
  currentClass : Option String
  function_variables : List (String × List (String × VarInfo))
  data_dependencies : List (String × List String)
deriving Repr

/-- The initial DataFlowAnalyzer state. -/
def dfInit : DFState := ⟨[], none, none, [], []⟩

/-- Set function_variables[fn][var] = info (defaultdict(dict) write). -/
def setFuncVar (m : List (String × List (String × VarInfo))) (fn v : String)
    (info : VarInfo) : List (String × List (String × VarInfo)) :=
  match m with
  | [] => [(fn, [(v, info)])]
  | (k, vars) :: rest =>
      if k = fn then (k, dictInsert vars v info) :: rest
      else (k, vars) :: setFuncVar rest fn v info

/-- The parameter bookkeeping at function entry: variable info plus a
parameter_input flow record for each positional argument, at the line of
the def. -/
def dfRecordParams (st : DFState) (fn : String) (line : Nat) :
    List PyArg → DFState
  | [] => st
  | a :: rest =>
      let st1 := { st with
        function_variables :=
          setFuncVar st.function_variables fn a.arg
            (.parameter fn line (extract_type_annot a.ann))
        data_flows := st.data_flows ++ [.parameterInput fn a.arg line] }
      dfRecordParams st1 fn line rest

/-- The dependency bookkeeping of visit_Assign for one target variable:
a variable source adds that variable, a call source adds the
call-prefixed function name. -/
def dfAssignDeps (deps : List (String × List String)) (var : String) :
    ValueSource → List (String × List String)
  | .variable srcVar => addToSetMap deps var srcVar
  | .functionCall f _ => addToSetMap deps var ("call:" ++ f)
  | _ => deps

/-- The state update of visit_Assign for one assignment target, applied
only to simple-name targets. -/
def dfAssignTarget (st : DFState) (fn : String) (vs : ValueSource) (line : Nat) :
    PyExpr → DFState
  | .name var =>
      { st with
        function_variables :=
          setFuncVar st.function_variables fn var (.assignment fn vs line)
        data_flows := st.data_flows ++ [.assignment fn var vs line]
        data_dependencies := dfAssignDeps st.data_dependencies var vs }
  | _ => st

/-- visit_Assign target loop. -/
def dfAssignTargets (st : DFState) (fn : String) (vs : ValueSource) (line : Nat) :
    List PyExpr → DFState
  | [] => st
  | t :: ts => dfAssignTargets (dfAssignTarget st fn vs line t) fn vs line ts

mutual
/-- Statement traversal of DataFlowAnalyzer, mirroring its visitors:
visit_ClassDef (class context save/restore), visit_FunctionDef and
visit_AsyncFunctionDef (function context plus parameter records),
visit_Assign, visit_AugAssign and visit_Return; expression statements
carry no data-flow visitor. -/
def dfVisitStmt (st : DFState) : PyStmt → DFState
  | .classDef name body _ =>
      let old := st.currentClass
      let st1 := { st with currentClass := some name }
      let st2 := dfVisitStmts st1 body
      { st2 with currentClass := old }
  | .funcDef n args _decs body _isAsync line _doc _src =>
      let fn := get_qualified_name st.currentClass n
      let old := st.currentFunction
      let st1 := { st with currentFunction := some fn }
      let st2 := dfRecordParams st1 fn line args
      let st3 := dfVisitStmts st2 body
      { st3 with currentFunction := old }
  | .assign targets value line =>
      match st.currentFunction with
      | none => st
      | some fn => dfAssignTargets st fn (analyze_value_source value) line targets
  | .augAssign target op value line =>
      match st.currentFunction, target with
      | some fn, .name var =>
          let vs := analyze_value_source value
          let st1 := { st with
            data_flows := st.data_flows ++ [DataFlowRec.augmentedAssignment fn var op vs line] }
          let deps1 := addToSetMap st1.data_dependencies var var
          let deps2 :=
            match vs with
            | .variable srcVar => addToSetMap deps1 var srcVar
            | _ => deps1
          { st1 with data_dependencies := deps2 }
      | _, _ => st
  | .ret v line =>
      match st.currentFunction, v with
      | some fn, some e =>
          { st with data_flows := st.data_flows ++ [.ret fn (analyze_value_source e) line] }
      | _, _ => st
  | .exprStmt _ _ => st

/-- Statement-list traversal of DataFlowAnalyzer. -/
def dfVisitStmts (st : DFState) : List PyStmt → DFState
  | [] => st
  | s :: rest => dfVisitStmts (dfVisitStmt st s) rest
end

/-- Whether a variable record is a parameter. -/
def VarInfo.isParameter : VarInfo → Bool
  | .parameter _ _ _ => true
  | _ => false

/-- Whether a variable record is an assignment from a call result. -/
def VarInfo.isCallAssignment : VarInfo → Bool
  | .assignment _ (.functionCall _ _) _ => true
  | _ => false

/-- One inputOutputFunctions entry of the flow patterns. -/
structure InOutEntry where
  function : String
  inputs : List String
  outputs : List ValueSource
  inputCount : Nat
  outputCount : Nat
deriving Repr

/-- The flowPatterns analytics.  variableLifecycles is always left
empty by the source. -/
structure FlowPatterns where
  inputOutputFunctions : List InOutEntry
  dataTransformers : List (String × Nat)
  complexDependencies : List (String × List String × Nat)
deriving Repr

/-- DataFlowAnalyzer._analyze_flow_patterns. -/
def analyze_flow_patterns (st : DFState) : FlowPatterns :=
  let inOut := st.function_variables.map
    fun (p : String × List (String × VarInfo)) =>
      let inputs := (p.2.filter fun q => q.2.isParameter).map (·.1)
      let outputs := st.data_flows.filterMap fun f =>
        match f with
        | .ret fn src _ => if fn = p.1 then some src else none
        | _ => none
      (⟨p.1, inputs, outputs, inputs.length, outputs.length⟩ : InOutEntry)
  let transformers := st.function_variables.filterMap
    fun (p : String × List (String × VarInfo)) =>
      let c := (p.2.filter fun q => q.2.isCallAssignment).length
      if c > 0 then some (p.1, c) else none
  let complex := st.data_dependencies.filterMap
    fun (p : String × List String) =>
      if p.2.length > 2 then some (p.1, p.2, p.2.length) else none
  ⟨inOut, transformers, complex⟩

/-- The complete data-flow bundle. -/
structure DataFlowResult where
  flows : List DataFlowRec
  functionVariables : List (String × List (String × VarInfo))
  dataDependencies : List (String × List String)
  flowPatterns : Option FlowPatterns
  totalFlows : Nat
  error : Option String
  extractionStatus : String
deriving Repr

/-- DataFlowAnalyzer.extract_data_flows: the try/except converts a raised
parse failure into the failed bundle with the error message; on a
successful parse nothing in the traversal raises and the bundle carries
extractionStatus success. -/
def extract_data_flows (pr : Except String (List PyStmt)) : DataFlowResult :=
  match pr with
  | .error e =>
      { flows := [], functionVariables := [], dataDependencies := []
        flowPatterns := none, totalFlows := 0
        error := some e, extractionStatus := "failed" }
  | .ok ms =>
      let st := dfVisitStmts dfInit ms
      { flows := st.data_flows
        functionVariables := st.function_variables
        dataDependencies := st.data_dependencies
        flowPatterns := some (analyze_flow_patterns st)
        totalFlows := st.data_flows.length
        error := none
        extractionStatus := "success" }

/-! ## String helpers over character lists

Python string operations used by the analyzers, implemented over
character lists so that they evaluate by kernel reduction. -/

/-- Python str.endswith. -/
def endswith (s suffix : String) : Bool :=
  suffix.toList.isSuffixOf s.toList

/-- Split a character list at every occurrence of a separator character
but at most maxSplit times (Python str.split(sep, maxsplit)). -/
def splitCharMax (sep : Char) (maxSplit : Nat) : List Char → List (List Char)
  | [] => [[]]
  | c :: cs =>
      if c = sep then
        match maxSplit with
        | 0 =>
            match splitCharMax sep 0 cs with
            | [] => [[c] ++ cs]
            | p :: ps => ((c :: p) :: ps)
        | m + 1 => [] :: splitCharMax sep m cs
      else
        match splitCharMax sep maxSplit cs with
        | [] => [[c]]
        | p :: ps => ((c :: p) :: ps)

/-- Python str.strip (ASCII whitespace). -/
def stripChars (cs : List Char) : List Char :=
  ((cs.dropWhile Char.isWhitespace).reverse.dropWhile Char.isWhitespace).reverse

/-- Whether a character list occurs inside another (Python in operator). -/
def containsChars (needle haystack : List Char) : Bool :=
  decide (needle <:+: haystack)

/-- Python str.isdigit restricted to ASCII digits. -/
def isdigitChars (cs : List Char) : Bool :=
  cs ≠ [] && cs.all Char.isDigit

/-- Numeric value of an ASCII digit string. -/
def digitsVal (cs : List Char) : Nat :=
  cs.foldl (fun n c => n * 10 + (c.toNat - 48)) 0

/-- Python str.lower (ASCII). -/
def lowerStr (s : String) : String :=
  (s.toList.map Char.toLower).asString

/-! ## TypeAnalyzer (src/extractor/type_analyzer.py)

External-tool wrapper.  A subprocess invocation bounded by a timeout is
modelled by its observable outcome: either it completed with a return
code, stdout and stderr, or it raised TimeoutExpired (carrying the
exception text).  The json.loads of tool output is an oracle returning
either the parsed data or the exception text. -/

/-- Outcome of one subprocess.run call with a timeout. -/
inductive SubprocResult where
  | completed (returncode : Int) (stdout : String) (stderr : String)
  | timedOut (msg : String)
deriving Repr, DecidableEq

/-- One diagnostic of the raw pyright JSON, with the fields the code
reads (range start position, message, severity, rule). -/
structure PyrightRawDiag where
  file : String
  startLine : Nat
  startCharacter : Nat
  message : String
  severity : String
  rule : String
deriving Repr, DecidableEq

/-- The parsed pyright JSON: the diagnostics plus the summary and
typeCompleteness payloads, which the code passes through unchanged and
are therefore kept opaque. -/
structure PyrightJson where
  generalDiagnostics : List PyrightRawDiag
  summary : String
  typeCompleteness : String
deriving Repr, DecidableEq

/-- One transformed type diagnostic (TypeAnalyzer._transform_pyright_diagnostics). -/
structure TypeDiag where
  file : String
  line : Nat
  column : Nat
  message : String
  severity : String
  rule : String
  category : String
deriving Repr, DecidableEq

/-- TypeAnalyzer._transform_pyright_diagnostics: one-based positions and
the fixed category tag. -/
def transform_pyright_diagnostics (ds : List PyrightRawDiag) : List TypeDiag :=
  ds.map fun d =>
    ⟨d.file, d.startLine + 1, d.startCharacter + 1, d.message, d.severity, d.rule,
      "type-checking"⟩

/-- The pyright result object. -/
structure PyrightResult where
  tool : String
  diagnostics : List TypeDiag
  summary : String
  typeCompleteness : String
deriving Repr, DecidableEq

/-- TypeAnalyzer._run_pyright: on timeout the exception is caught and
None is returned; on completion with empty stdout the function falls
through to None; a json parse failure is likewise caught as None.  Note
None is exactly the value analyze_types uses when the binary is not
installed. -/
def run_pyright (r : SubprocResult)
    (loads : String → Except String PyrightJson) : Option PyrightResult :=
  match r with
  | .timedOut _ => none
  | .completed _rc out _err =>
      if out ≠ "" then
        match loads out with
        | .ok d =>
            some ⟨"pyright", transform_pyright_diagnostics d.generalDiagnostics,
              d.summary, d.typeCompleteness⟩
        | .error _ => none
      else none

/-- One parsed mypy diagnostic line. -/
structure MypyDiag where
  file : String
  line : Nat
  column : Nat
  message : String
  severity : String
deriving Repr, DecidableEq

/-- The mypy stdout line parser of TypeAnalyzer._run_mypy: lines that
are nonempty after stripping and contain a colon are split on the first
three colons; when that yields at least four parts a diagnostic is
built, with non-numeric line and column parts becoming 0 and severity
decided by the substring error-colon. -/
def parseMypyLine (lineCs : List Char) : Option MypyDiag :=
  if stripChars lineCs ≠ [] ∧ ':' ∈ lineCs then
    match splitCharMax ':' 3 lineCs with
    | p0 :: p1 :: p2 :: p3 :: _ =>
        some
          { file := p0.asString
            line := if isdigitChars p1 then digitsVal p1 else 0
            column := if isdigitChars p2 then digitsVal p2 else 0
            message := (stripChars p3).asString
            severity := if containsChars "error:".toList lineCs then "error" else "warning" }
    | _ => none
  else none

/-- The mypy result object. -/
structure MypyResult where
  tool : String
  diagnostics : List MypyDiag
  returnCode : Int
deriving Repr, DecidableEq

/-- TypeAnalyzer._run_mypy: on timeout the exception is caught and None
is returned; on completion the stdout lines are parsed and a result is
always built. -/
def run_mypy (r : SubprocResult) : Option MypyResult :=
  match r with
  | .timedOut _ => none
  | .completed rc out _err =>
      some ⟨"mypy", (splitCharMax '\n' out.toList.length out.toList).filterMap parseMypyLine, rc⟩

/-- The combined type summary. -/
structure TypeSummary where
  totalErrors : Nat
  totalWarnings : Nat
  filesAnalyzed : Nat
  toolsUsed : List String
deriving Repr, DecidableEq

/-- TypeAnalyzer._combine_type_results. -/
def combine_type_results (pyright : Option PyrightResult) (mypy : Option MypyResult) :
    TypeSummary :=
  let pds := (pyright.map (·.diagnostics)).getD []
  let mds := (mypy.map (·.diagnostics)).getD []
  let totalErrors :=
    (pds.filter fun d => d.severity = "error").length
      + (mds.filter fun d => d.severity = "error").length
  let totalWarnings :=
    (pds.filter fun d => d.severity ≠ "error").length
      + (mds.filter fun d => d.severity ≠ "error").length
  let files :=
    (mds.map (·.file)).foldl addNew ((pds.map (·.file)).foldl addNew [])
  { totalErrors := totalErrors
    totalWarnings := totalWarnings
    filesAnalyzed := files.length
    toolsUsed :=
      (if pyright.isSome then ["pyright"] else []) ++ (if mypy.isSome then ["mypy"] else []) }

/-- The observable tool environment of one TypeAnalyzer instance:
binary availability (the version probes of the constructor) and the
outcome of each bounded tool invocation together with its output
parse. -/
structure TypeToolsWorld where
  pyrightAvailable : Bool
  mypyAvailable : Bool
  pyrightRun : SubprocResult
  pyrightLoads : String → Except String PyrightJson
  mypyRun : SubprocResult

/-- The TypeAnalysis record. -/
structure TypeAnalysisRec where
  pyright : Option PyrightResult
  mypy : Option MypyResult
  summary : TypeSummary

/-- TypeAnalyzer.analyze_types: a missing binary yields a null field (not
an error); each runner is invoked inside its own try, so a failure in
one never aborts the other. -/
def analyze_types (w : TypeToolsWorld) : TypeAnalysisRec :=
  let p := if w.pyrightAvailable then run_pyright w.pyrightRun w.pyrightLoads else none
  let m := if w.mypyAvailable then run_mypy w.mypyRun else none
  ⟨p, m, combine_type_results p m⟩

/-! ## SecurityAnalyzer (src/extractor/security_analyzer.py) -/

/-- One raw bandit issue with the fields _transform_bandit_results reads. -/
structure BanditRawIssue where
  test_id : String
  test_name : String
  issue_severity : String
  issue_confidence : String
  filename : String
  line_number : Nat
  code : String
  issue_text : String
  issue_cwe : Option Nat
  more_info : String
deriving Repr, DecidableEq

/-- The parsed bandit report JSON; metrics and skipped are passed
through unchanged and kept opaque. -/
structure BanditJson where
  results : List BanditRawIssue
  metrics : String
  skipped : String
deriving Repr, DecidableEq

/-- One transformed security vulnerability (bandit schema). -/
structure SecVuln where
  tool : String
  testId : String
  testName : String
  severity : String
  confidence : String
  file : String
  line : Nat
  code : String
  message : String
  cwe : Option Nat
  moreInfo : String
deriving Repr, DecidableEq

/-- SecurityAnalyzer._transform_bandit_results. -/
def transform_bandit_results (rs : List BanditRawIssue) : List SecVuln :=
  rs.map fun r =>
    ⟨"bandit", r.test_id, r.test_name, r.issue_severity, r.issue_confidence,
      r.filename, r.line_number, r.code, r.issue_text, r.issue_cwe, r.more_info⟩

/-- The bandit result object. -/
structure BanditResult where
  tool : String
  vulnerabilities : List SecVuln
  metrics : String
  skippedTests : String
deriving Repr, DecidableEq

/-- SecurityAnalyzer._run_bandit: on timeout the exception is caught and
None is returned; on completion the report file is read if it exists and
its JSON parsed, any parse failure again yielding None.  As with
pyright, None coincides with the not-installed marker of
analyze_security. -/
def run_bandit (r : SubprocResult) (report : Option String)
    (loads : String → Except String BanditJson) : Option BanditResult :=
  match r with
  | .timedOut _ => none
  | .completed _rc _out _err =>
      match report with
      | some content =>
          match loads content with
          | .ok d => some ⟨"bandit", transform_bandit_results d.results, d.metrics, d.skipped⟩
          | .error _ => none
      | none => none

/-- One location of a SARIF result with the fields the code reads. -/
structure SarifLoc where
  uri : String
  startLine : Nat
  startColumn : Nat
  snippet : String
deriving Repr, DecidableEq

/-- One SARIF result. -/
structure SarifResult where
  ruleId : String
  message : String
  level : String
  locations : List SarifLoc
deriving Repr, DecidableEq

/-- The parsed SARIF document: runs, each a result list. -/
structure SarifJson where
  runs : List (List SarifResult)
deriving Repr, DecidableEq

/-- One transformed security vulnerability (codeql schema). -/
structure CodeqlVuln where
  tool : String
  ruleId : String
  message : String
  file : String
  line : Nat
  column : Nat
  severity : String
  snippet : String
deriving Repr, DecidableEq

/-- SecurityAnalyzer._transform_codeql_results. -/
def transform_codeql_results (d : SarifJson) : List CodeqlVuln :=
  d.runs.flatMap fun results =>
    results.flatMap fun r =>
      r.locations.map fun loc =>
        ⟨"codeql", r.ruleId, r.message, loc.uri, loc.startLine, loc.startColumn,
          r.level, loc.snippet⟩

/-- The codeql result dict: unlike pyright and bandit, _run_codeql
always returns a dict, either the vulnerability payload or an
error-string object. -/
inductive CodeqlOutcome where
  | result (vulnerabilities : List CodeqlVuln)
  | failure (error : String)
deriving Repr, DecidableEq

/-- SecurityAnalyzer._run_codeql: database creation and analysis are two
bounded subprocess calls; every failure path (timeout exception, nonzero
creation exit, nonzero analysis exit or missing SARIF file, JSON parse
exception) produces an explicit error-string object. -/
def run_codeql (create analyze : SubprocResult) (sarifContent : Option String)
    (loads : String → Except String SarifJson) : CodeqlOutcome :=
  match create with
  | .timedOut m => .failure m
  | .completed crc _cout cerr =>
      if crc ≠ 0 then .failure ("CodeQL database creation failed: " ++ cerr)
      else
        match analyze with
        | .timedOut m => .failure m
        | .completed arc _aout aerr =>
            if arc = 0 then
              match sarifContent with
              | some s =>
                  match loads s with
                  | .ok d => .result (transform_codeql_results d)
                  | .error em => .failure em
              | none => .failure ("CodeQL analysis failed: " ++ aerr)
            else .failure ("CodeQL analysis failed: " ++ aerr)

/-- The combined security summary. -/
structure SecSummary where
  totalVulnerabilities : Nat
  high : Nat
  medium : Nat
  low : Nat
  info : Nat
  toolsUsed : List String
  riskLevel : String
deriving Repr, DecidableEq

/-- SecurityAnalyzer._calculate_risk_level. -/
def calculate_risk_level (high medium low : Nat) : String :=
  if high > 0 then "HIGH"
  else if medium > 2 then "MEDIUM"
  else if low > 5 then "LOW"
  else "MINIMAL"

/-- Fold of one severity string into the four counters (lower-cased;
anything unrecognized counts as info). -/
def countSeverity (c : Nat × Nat × Nat × Nat) (sev : String) : Nat × Nat × Nat × Nat :=
  let s := lowerStr sev
  if s = "high" then (c.1 + 1, c.2.1, c.2.2.1, c.2.2.2)
  else if s = "medium" then (c.1, c.2.1 + 1, c.2.2.1, c.2.2.2)
  else if s = "low" then (c.1, c.2.1, c.2.2.1 + 1, c.2.2.2)
  else (c.1, c.2.1, c.2.2.1, c.2.2.2 + 1)

/-- SecurityAnalyzer._combine_security_results: a tool contributes only
when its result object exists and carries a vulnerabilities key, which
excludes both null results and codeql error objects. -/
def combine_security_results (bandit : Option BanditResult)
    (codeql : Option CodeqlOutcome) : SecSummary :=
  let banditSevs :=
    match bandit with
    | some b => b.vulnerabilities.map (fun (v : SecVuln) => v.severity)
    | none => []
  let codeqlSevs :=
    match codeql with
    | some (.result vs) => vs.map (fun (v : CodeqlVuln) => v.severity)
    | _ => []
  let toolsUsed :=
    (match bandit with | some _ => ["bandit"] | none => [])
      ++ (match codeql with | some (.result _) => ["codeql"] | _ => [])
  let c := (banditSevs ++ codeqlSevs).foldl countSeverity (0, 0, 0, 0)
  { totalVulnerabilities := banditSevs.length + codeqlSevs.length
    high := c.1, medium := c.2.1, low := c.2.2.1, info := c.2.2.2
    toolsUsed := toolsUsed
    riskLevel := calculate_risk_level c.1 c.2.1 c.2.2.1 }

/-- The observable tool environment of one SecurityAnalyzer instance. -/
structure SecToolsWorld where
  banditAvailable : Bool
  codeqlAvailable : Bool
  banditRun : SubprocResult
  banditReport : Option String
  banditLoads : String → Except String BanditJson
  codeqlCreate : SubprocResult
  codeqlAnalyze : SubprocResult
  codeqlSarif : Option String
  codeqlLoads : String → Except String SarifJson

/-- The SecurityAnalysis record. -/
structure SecurityAnalysisRec where
  bandit : Option BanditResult
  codeql : Option CodeqlOutcome
  summary : SecSummary

/-- SecurityAnalyzer.analyze_security. -/
def analyze_security (w : SecToolsWorld) : SecurityAnalysisRec :=
  let b := if w.banditAvailable then run_bandit w.banditRun w.banditReport w.banditLoads else none
  let c :=
    if w.codeqlAvailable then
      some (run_codeql w.codeqlCreate w.codeqlAnalyze w.codeqlSarif w.codeqlLoads)
    else none
  ⟨b, c, combine_security_results b c⟩

/-! ## Decode-tolerant file reading

The walkers open files with encoding utf-8 and errors ignore.  The UTF-8
decoder is modelled over raw byte lists, emitting for each position
either a decoded code point or a marker for an invalid maximal subpart
(CPython's error granularity: an invalid lone byte, or the longest valid
prefix of a truncated sequence, consumes its bytes and produces one
error event).  The ignore policy drops the error events; the replace
policy would map each to U+FFFD (code point 65533). -/

/-- Whether a byte is a UTF-8 continuation byte. -/
def isCont (b : Nat) : Bool := 128 ≤ b && b ≤ 191

/-- Whether a byte is a valid second byte after the given leading byte
of a three- or four-byte sequence (surrogate and overlong exclusions). -/
def validSecond (b c : Nat) : Bool :=
  if b = 224 then 160 ≤ c && c ≤ 191
  else if b = 237 then 128 ≤ c && c ≤ 159
  else if b = 240 then 144 ≤ c && c ≤ 191
  else if b = 244 then 128 ≤ c && c ≤ 143
  else isCont c

/-- The UTF-8 event stream of a byte list: some code point per decoded
scalar, none per invalid maximal subpart. -/
def utf8Events : List Nat → List (Option Nat)
  | [] => []
  | b :: rest =>
      if b < 128 then some b :: utf8Events rest
      else if 194 ≤ b && b ≤ 223 then
        match rest with
        | c1 :: rest2 =>
            if isCont c1 then some ((b - 192) * 64 + (c1 - 128)) :: utf8Events rest2
            else none :: utf8Events (c1 :: rest2)
        | [] => [none]
      else if 224 ≤ b && b ≤ 239 then
        match rest with
        | c1 :: rest2 =>
            if validSecond b c1 then
              match rest2 with
              | c2 :: rest3 =>
                  if isCont c2 then
                    some (((b - 224) * 64 + (c1 - 128)) * 64 + (c2 - 128))
                      :: utf8Events rest3
                  else none :: utf8Events (c2 :: rest3)
              | [] => [none]
            else none :: utf8Events (c1 :: rest2)
        | [] => [none]
      else if 240 ≤ b && b ≤ 244 then
        match rest with
        | c1 :: rest2 =>
            if validSecond b c1 then
              match rest2 with
              | c2 :: rest3 =>
                  if isCont c2 then
                    match rest3 with
                    | c3 :: rest4 =>
                        if isCont c3 then
                          some ((((b - 240) * 64 + (c1 - 128)) * 64 + (c2 - 128)) * 64
                            + (c3 - 128)) :: utf8Events rest4
                        else none :: utf8Events (c3 :: rest4)
                    | [] => [none]
                  else none :: utf8Events (c2 :: rest3)
              | [] => [none]
            else none :: utf8Events (c1 :: rest2)
        | [] => [none]
      else none :: utf8Events rest

/-- Decoding with errors ignore: invalid subparts are dropped.  This is
what the walkers' open call does; the read is total (never raises). -/
def decodeIgnore (bs : List Nat) : List Nat :=
  (utf8Events bs).filterMap id

/-- Decoding with errors replace, for comparison with the spec wording:
each invalid subpart becomes the replacement character U+FFFD. -/
def decodeReplace (bs : List Nat) : List Nat :=
  (utf8Events bs).map fun e => e.getD 65533

/-! ## The enhanced pipeline
(src/extractor/function_extractor.py EnhancedFunctionExtractor,
src/extractor/hierarchical_walker.py)

External collaborators enter as oracles: ast.parse over the decoded
source either returns the module statements or raises an error string;
the libcst and parso extractors are total side-channel producers whose
payloads are abstracted to the aspects the pipeline can observe (the
code never consults them before returning); the external tool analyzers
carry the subprocess worlds defined above.  The machine-learning
summary/embedding attachments and the tree-sitter/dossier outputs of
build_enhanced_codefile are excluded collaborators (spec section 1) and
are not represented. -/

/-- Abstraction of extract_with_libcst output: only the presence of a
parse error is represented. -/
structure LibcstResult where
  error : Option String
deriving Repr

/-- Abstraction of ParsoExtractor.extract_with_error_recovery output:
only the error-string list of the error-tolerant side channel is
represented. -/
structure ParsoResult where
  parseErrors : List String
deriving Repr

/-- The oracle bundle of one EnhancedFunctionExtractor. -/
structure EnhancedOracles where
  parse : List Nat → Except String (List PyStmt)
  libcstOf : List Nat → LibcstResult
  parsoRecover : List Nat → ParsoResult
  typeWorld : TypeToolsWorld
  secWorld : SecToolsWorld

/-- The enhanced per-file bundle. -/
structure EnhancedRecord where
  astClasses : List ClassEntry
  astFunctions : List FuncEntry
  libcst : LibcstResult
  parso : ParsoResult
  typeAnalysis : Option TypeAnalysisRec
  securityAnalysis : Option SecurityAnalysisRec
  callGraph : CallGraphResult
  dataFlow : DataFlowResult

/-- EnhancedFunctionExtractor.extract_enhanced.  The first step is the
plain extract call, whose ast.parse is not guarded by any try: a parse
failure propagates to the caller before any side channel is built.  The
boolean records whether an analysis path was supplied (the walker always
passes the package root, so the tool analyzers run). -/
def extract_enhanced (o : EnhancedOracles) (code : List Nat)
    (hasAnalysisPath : Bool) : Except String EnhancedRecord := do
  let fe ← feExtract (o.parse code)
  let libcstData := o.libcstOf code
  let parsoData := o.parsoRecover code
  let typeA := if hasAnalysisPath then some (analyze_types o.typeWorld) else none
  let secA := if hasAnalysisPath then some (analyze_security o.secWorld) else none
  let cg := extract_call_relationships (o.parse code)
  let df := extract_data_flows (o.parse code)
  pure ⟨fe.classes, fe.functions, libcstData, parsoData, typeA, secA, cg, df⟩

/-- The unified per-file record (hierarchical_walker.build_enhanced_codefile):
name, language, raw text, canonical entries (classes then top-level
functions) and the enhanced bundle. -/
structure CodeFileRec where
  name : String
  programmingLanguage : String
  text : List Nat
  hasPartClasses : List ClassEntry
  hasPartFunctions : List FuncEntry
  enhanced : EnhancedRecord

/-- hierarchical_walker.build_enhanced_codefile: runs extract_enhanced
(with the package root as analysis path) and assembles the CodeFile
record.  No exception is caught: a parse failure propagates. -/
def build_enhanced_codefile (o : EnhancedOracles) (rel_path : String)
    (code : List Nat) : Except String CodeFileRec := do
  let enh ← extract_enhanced o code true
  pure ⟨rel_path, "Python", code, enh.astClasses, enh.astFunctions, enh⟩

/-- One directory of the os.walk enumeration: its path relative to the
base (the base itself being the single dot) and its file names with
their raw byte contents, in emission order. -/
structure FSDir where
  root : String
  files : List (String × List Nat)
deriving Repr, DecidableEq

/-- os.path.join followed by os.path.relpath against the base. -/
def relJoin (root f : String) : String :=
  if root = "." then f else root ++ "/" ++ f

/-- Append a file record to its module group (defaultdict(list)). -/
def addModFile (m : List (String × List CodeFileRec)) (k : String)
    (cf : CodeFileRec) : List (String × List CodeFileRec) :=
  match m with
  | [] => [(k, [cf])]
  | (k2, cfs) :: rest =>
      if k2 = k then (k2, cfs ++ [cf]) :: rest else (k2, cfs) :: addModFile rest k cf

/-- The inner file loop of walk_python_modules_enhanced over one
directory: every name ending in the source extension is read with the
decode-tolerant read and built into a CodeFile record appended to the
directory's module group.  A build failure propagates. -/
def walkFilesLoop (o : EnhancedOracles) (root : String)
    (acc : List (String × List CodeFileRec)) :
    List (String × List Nat) → Except String (List (String × List CodeFileRec))
  | [] => .ok acc
  | (f, bytes) :: rest =>
      if endswith f ".py" then do
        let cf ← build_enhanced_codefile o (relJoin root f) (decodeIgnore bytes)
        walkFilesLoop o root (addModFile acc root cf) rest
      else walkFilesLoop o root acc rest

/-- The outer directory loop of walk_python_modules_enhanced. -/
def walkDirsLoop (o : EnhancedOracles) (acc : List (String × List CodeFileRec)) :
    List FSDir → Except String (List (String × List CodeFileRec))
  | [] => .ok acc
  | d :: rest => do
      let acc2 ← walkFilesLoop o d.root acc d.files
      walkDirsLoop o acc2 rest

/-- One module of the result. -/
structure ModuleRec where
  name : String
  hasPart : List CodeFileRec

/-- hierarchical_walker.walk_python_modules_enhanced: group every
source file's record by directory, then emit the module list with the
dot directory renamed to the empty string.  There is no exception
handling anywhere in the loop: a failure on any file aborts the whole
walk. -/
def walk_python_modules_enhanced (o : EnhancedOracles) (tree : List FSDir) :
    Except String (List ModuleRec) := do
  let modules ← walkDirsLoop o [] tree
  pure (modules.map fun p => ⟨if p.1 ≠ "." then p.1 else "", p.2⟩)

/-- The pair-emission aspect of the walkers' loops (which files are
read, into which directory group), shared by walk_python_modules_enhanced
and file_walker.walk_python_files: every file ending in the source
extension is emitted; no directory is skipped. -/
def walkPairs (tree : List FSDir) : List (String × String) :=
  tree.flatMap fun d =>
    (d.files.filter fun f => endswith f.1 ".py").map fun f => (relJoin d.root f.1, d.root)

/-- Whether a relative directory path has a component starting with the
pycache marker. -/
def inCacheDir (root : String) : Bool :=
  (splitCharMax '/' root.toList.length root.toList).any
    fun comp => "__pycache__".toList.isPrefixOf comp

/-- The emission the specification describes, as worded: every source
file, skipping cache directories (a path component starting with the
pycache marker). -/
def walkPairsSpec (tree : List FSDir) : List (String × String) :=
  (tree.filter fun d => !inCacheDir d.root).flatMap fun d =>
    (d.files.filter fun f => endswith f.1 ".py").map fun f => (relJoin d.root f.1, d.root)

/-! ## Helper lemmas on the container operations -/

theorem mem_addNew_self (xs : List String) (x : String) : x ∈ addNew xs x := by
  by_cases h : x ∈ xs <;> simp [addNew, h]

theorem mem_addNew_of_mem {xs : List String} {y : String} (x : String)
    (h : y ∈ xs) : y ∈ addNew xs x := by
  by_cases hx : x ∈ xs <;> simp [addNew, hx, h]

theorem lookupSetMap_addToSetMap_self (m : List (String × List String)) (k v : String) :
    v ∈ lookupSetMap (addToSetMap m k v) k := by
  induction m with
  | nil => simp [addToSetMap, lookupSetMap]
  | cons p rest ih =>
      obtain ⟨k2, vs⟩ := p
      by_cases h : k2 = k
      · simp [addToSetMap, lookupSetMap, h, mem_addNew_self]
      · simp [addToSetMap, lookupSetMap, h, ih]

theorem lookupSetMap_addToSetMap_mono {m : List (String × List String)} {k' w : String}
    (k v : String) (h : w ∈ lookupSetMap m k') :
    w ∈ lookupSetMap (addToSetMap m k v) k' := by
  induction m with
  | nil => simp [lookupSetMap] at h
  | cons p rest ih =>
      obtain ⟨k2, vs⟩ := p
      by_cases h2 : k2 = k
      · subst h2
        by_cases h3 : k2 = k'
        · subst h3
          simp [lookupSetMap] at h
          simp [addToSetMap, lookupSetMap, mem_addNew_of_mem v h]
        · simp [lookupSetMap, h3] at h
          simp [addToSetMap, lookupSetMap, h3, h]
      · by_cases h3 : k2 = k'
        · subst h3
          simp [lookupSetMap] at h
          simp [addToSetMap, lookupSetMap, h2, h]
        · simp [lookupSetMap, h3] at h
          simp [addToSetMap, lookupSetMap, h2, h3, ih h]

/-! ## Provenance of the FunctionExtractor traversal -/

theorem feVisit_classes (p : Bool) (st : FEState) (ms : List PyStmt) :
    (feVisit p st ms).classes = st.classes ++ (collectClassNodes ms).map classEntryOf := by
  refine feVisit.induct
    (fun p st s =>
      (feVisitStmt p st s).classes = st.classes ++ (classNodesOfStmt s).map classEntryOf)
    (fun p st ms =>
      (feVisit p st ms).classes = st.classes ++ (collectClassNodes ms).map classEntryOf)
    ?_ ?_ ?_ ?_ ?_ ?_ ?_ ?_ ?_ p st ms
  · intro p st n b line ih
    simp [feVisitStmt, classNodesOfStmt, classEntryOf, ih]
  · intro st n args decs b isAsync line doc src
    simp [feVisitStmt, classNodesOfStmt]
  · intro p st n args decs b isAsync line doc src hp
    simp [feVisitStmt, classNodesOfStmt, hp]
  · intro p st targets value line; simp [feVisitStmt, classNodesOfStmt]
  · intro p st target op value line; simp [feVisitStmt, classNodesOfStmt]
  · intro p st value line; simp [feVisitStmt, classNodesOfStmt]
  · intro p st value line; simp [feVisitStmt, classNodesOfStmt]
  · intro p st; simp [feVisit, collectClassNodes]
  · intro p st s rest ih1 ih2
    simp [feVisit, collectClassNodes, ih2, ih1]

theorem feVisit_functions (p : Bool) (st : FEState) (ms : List PyStmt) :
    (feVisit p st ms).functions = st.functions ++ feFuncs p ms := by
  refine feVisit.induct
    (fun p st s => (feVisitStmt p st s).functions = st.functions ++ feFuncsOfStmt p s)
    (fun p st ms => (feVisit p st ms).functions = st.functions ++ feFuncs p ms)
    ?_ ?_ ?_ ?_ ?_ ?_ ?_ ?_ ?_ p st ms
  · intro p st n b line ih
    simp [feVisitStmt, feFuncsOfStmt, ih]
  · intro st n args decs b isAsync line doc src
    simp [feVisitStmt, feFuncsOfStmt]
  · intro p st n args decs b isAsync line doc src hp
    simp at hp
    simp [feVisitStmt, feFuncsOfStmt, hp]
  · intro p st targets value line; simp [feVisitStmt, feFuncsOfStmt]
  · intro p st target op value line; simp [feVisitStmt, feFuncsOfStmt]
  · intro p st value line; simp [feVisitStmt, feFuncsOfStmt]
  · intro p st value line; simp [feVisitStmt, feFuncsOfStmt]
  · intro p st; simp [feVisit, feFuncs]
  · intro p st s rest ih1 ih2
    simp [feVisit, feFuncs, ih2, ih1]

theorem method_entries_names (cname : String) (body : List PyStmt) :
    (method_entries cname body).map (fun e => e.name) = directFuncNames body := by
  induction body with
  | nil => simp [method_entries, directFuncNames]
  | cons s rest ih =>
      cases s <;> simp [method_entries, directFuncNames, function_to_json] at ih ⊢ <;> simp [ih]

theorem mem_collectClassNodes_of_mem {ms : List PyStmt} {n : String} {b : List PyStmt}
    {l : Nat} (h : PyStmt.classDef n b l ∈ ms) : (n, b) ∈ collectClassNodes ms := by
  induction ms with
  | nil => simp at h
  | cons s rest ih =>
      rcases List.mem_cons.mp h with h1 | h2
      · subst h1; simp [collectClassNodes, classNodesOfStmt]
      · simp [collectClassNodes]
        exact Or.inr (ih h2)

theorem collectClassNodes_sub {p : String × List PyStmt} {ms : List PyStmt}
    {n : String} {b : List PyStmt} {l : Nat}
    (hmem : PyStmt.classDef n b l ∈ ms) (hp : p ∈ collectClassNodes b) :
    p ∈ collectClassNodes ms := by
  induction ms with
  | nil => simp at hmem
  | cons s rest ih =>
      rcases List.mem_cons.mp hmem with h1 | h2
      · subst h1; simp [collectClassNodes, classNodesOfStmt]
        exact Or.inr (Or.inl hp)
      · simp [collectClassNodes]
        exact Or.inr (ih h2)

theorem method_entries_isAsync {cname : String} {body : List PyStmt}
    {m : FuncEntry} (h : m ∈ method_entries cname body) : m.isAsync = false := by
  induction body with
  | nil => simp [method_entries] at h
  | cons s rest ih =>
      cases s <;> simp [method_entries] at h <;>
        first
        | exact ih (by simpa [method_entries] using h)
        | rcases h with h1 | h2
          · subst h1; simp [function_to_json]
          · exact ih (by simpa [method_entries] using h2)

theorem feFuncs_mem_of_mem {ms : List PyStmt} {n : String} {args : List PyArg}
    {decs : List PyExpr} {b : List PyStmt} {line : Nat} {doc : Option String}
    {src : String} {isAsync : Bool}
    (h : PyStmt.funcDef n args decs b isAsync line doc src ∈ ms) :
    function_to_json n args decs b doc src none isAsync ∈ feFuncs false ms := by
  induction ms with
  | nil => simp at h
  | cons s rest ih =>
      rcases List.mem_cons.mp h with h1 | h2
      · subst h1; simp [feFuncs, feFuncsOfStmt]
      · simp [feFuncs]
        exact Or.inr (ih h2)

/-- C7: for every class Entry produced by the primary structural
extractor, the entry comes from a class node reached by the traversal
and its method list is built from exactly the function definitions of
that class's immediate body (method_entries filters direct
FunctionDef/AsyncFunctionDef children only), whose names are exactly the
direct function-definition names — so a method of a nested class never
appears in the outer class's method list. -/
theorem c7_method_list_is_immediate_body (ms : List PyStmt) (n : String)
    (b : List PyStmt) :
    (feExtractModule ms).classes = (collectClassNodes ms).map classEntryOf
    ∧ (method_entries n b).map (fun e => e.name) = directFuncNames b := by
  constructor
  · simpa [feExtractModule] using feVisit_classes false ⟨[], []⟩ ms
  · exact method_entries_names n b

/-- C9: every method entry the primary structural extractor emits has
isAsync false (function_to_json is called without is_async when building
class methods, even for async defs), while a top-level async function's
entry has isAsync true. -/
theorem c9_isasync_only_top_level (ms : List PyStmt) :
    (∀ c ∈ (feExtractModule ms).classes, ∀ m ∈ c.hasPart, m.isAsync = false)
    ∧ (∀ (n : String) (args : List PyArg) (decs : List PyExpr) (b : List PyStmt)
        (line : Nat) (doc : Option String) (src : String),
        PyStmt.funcDef n args decs b true line doc src ∈ ms →
          function_to_json n args decs b doc src none true ∈ (feExtractModule ms).functions
          ∧ (function_to_json n args decs b doc src none true).isAsync = true) := by
  constructor
  · intro c hc m hm
    have hcl : (feExtractModule ms).classes = (collectClassNodes ms).map classEntryOf := by
      simpa [feExtractModule] using feVisit_classes false ⟨[], []⟩ ms
    rw [hcl] at hc
    obtain ⟨p, _, hp⟩ := List.mem_map.mp hc
    subst hp
    exact method_entries_isAsync (by simpa [classEntryOf] using hm)
  · intro n args decs b line doc src h
    have hfn : (feExtractModule ms).functions = feFuncs false ms := by
      simpa [feExtractModule] using feVisit_functions false ⟨[], []⟩ ms
    exact ⟨by rw [hfn]; exact feFuncs_mem_of_mem h, by simp [function_to_json]⟩

/-- C10: the primary structural extractor's class list is exactly the
class nodes reached by a traversal that descends into class bodies but
never into function bodies: a class nested in a class contributes its
own separate entry, while a function definition consumes its whole body
(nothing defined inside it is ever reported, in either the class list or
the top-level function list). -/
theorem c10_traversal_scope (ms : List PyStmt) :
    ((feExtractModule ms).classes = (collectClassNodes ms).map classEntryOf)
    ∧ (∀ (nOut : String) (bOut : List PyStmt) (lOut : Nat) (nIn : String)
        (bIn : List PyStmt) (lIn : Nat),
        PyStmt.classDef nOut bOut lOut ∈ ms →
        PyStmt.classDef nIn bIn lIn ∈ bOut →
          classEntryOf (nIn, bIn) ∈ (feExtractModule ms).classes)
    ∧ (∀ (n : String) (args : List PyArg) (decs : List PyExpr) (b : List PyStmt)
        (isAsync : Bool) (line : Nat) (doc : Option String) (src : String)
        (rest : List PyStmt),
        feExtractModule (PyStmt.funcDef n args decs b isAsync line doc src :: rest)
          = ⟨(feExtractModule rest).classes,
             function_to_json n args decs b doc src none isAsync
               :: (feExtractModule rest).functions⟩) := by
  have hcl : ∀ ms2, (feExtractModule ms2).classes = (collectClassNodes ms2).map classEntryOf :=
    fun ms2 => by simpa [feExtractModule] using feVisit_classes false ⟨[], []⟩ ms2
  have hfn : ∀ ms2, (feExtractModule ms2).functions = feFuncs false ms2 :=
    fun ms2 => by simpa [feExtractModule] using feVisit_functions false ⟨[], []⟩ ms2
  refine ⟨hcl ms, ?_, ?_⟩
  · intro nOut bOut lOut nIn bIn lIn hOut hIn
    rw [hcl ms]
    exact List.mem_map.mpr
      ⟨(nIn, bIn), collectClassNodes_sub hOut (mem_collectClassNodes_of_mem hIn), rfl⟩
  · intro n args decs b isAsync line doc src rest
    have h1 : feExtractModule (PyStmt.funcDef n args decs b isAsync line doc src :: rest)
        = feVisit false ⟨[], [function_to_json n args decs b doc src none isAsync]⟩ rest := by
      simp [feExtractModule, feVisit, feVisitStmt]
    rw [h1]
    have h2 := feVisit_classes false ⟨[], [function_to_json n args decs b doc src none isAsync]⟩ rest
    have h3 := feVisit_functions false ⟨[], [function_to_json n args decs b doc src none isAsync]⟩ rest
    cases hres : feVisit false ⟨[], [function_to_json n args decs b doc src none isAsync]⟩ rest
    simp_all [hcl ms, hfn, FEState.mk.injEq]

/-- Fixture for the C9 witness: a class with an async method and a
top-level async function. -/
def ms9 : List PyStmt :=
  [.classDef "C" [.funcDef "am" [] [] [] true 2 none "s1"] 1,
   .funcDef "tf" [] [] [] true 3 none "s2"]

/-- C9 witness: on the concrete fixture, the top-level async def yields
an entry with isAsync true while the async method's entry has isAsync
false. -/
theorem c9_isasync_only_top_level_witness :
    (function_to_json "tf" [] [] [] none "s2" none true ∈ (feExtractModule ms9).functions
      ∧ (function_to_json "tf" [] [] [] none "s2" none true).isAsync = true)
    ∧ (function_to_json "am" [] [] [] none "s1" (some "C") false).isAsync = false :=
  ⟨(c9_isasync_only_top_level ms9).2 "tf" [] [] [] 3 none "s2" (by simp [ms9]),
   (c9_isasync_only_top_level ms9).1
     (classEntryOf ("C", [.funcDef "am" [] [] [] true 2 none "s1"])) (by decide)
     (function_to_json "am" [] [] [] none "s1" (some "C") false) (by decide)⟩

/-- Fixture for the C10 witness: a class nested inside a class, each
with its own method. -/
def msA : List PyStmt :=
  [.classDef "Outer"
    [.funcDef "m1" [] [] [] false 2 none "sm1",
     .classDef "Inner" [.funcDef "m2" [] [] [] false 4 none "sm2"] 3] 1]

/-- C10 witness: on the concrete fixture, the nested class Inner appears
as its own entry in the class list. -/
theorem c10_traversal_scope_witness :
    classEntryOf ("Inner", [.funcDef "m2" [] [] [] false 4 none "sm2"])
      ∈ (feExtractModule msA).classes :=
  (c10_traversal_scope msA).2.1 "Outer"
    [.funcDef "m1" [] [] [] false 2 none "sm1",
     .classDef "Inner" [.funcDef "m2" [] [] [] false 4 none "sm2"] 3] 1
    "Inner" [.funcDef "m2" [] [] [] false 4 none "sm2"] 3
    (by simp [msA]) (by simp)

/-- Fixture for C2: a function f whose body contains exactly the call
expressions a() and b.c() with b a bare name. -/
def msC2 : List PyStmt :=
  [.funcDef "f" [] []
    [.exprStmt (.call (.name "a") [] 0 2) 2,
     .exprStmt (.call (.attribute (.name "b") "c") [] 0 3) 3] false 1 none "srcf"]

/-- C2 counterexample: on the fixture, the call-graph bundle's callee
set recorded for f is the pair set of a and b.c — an attribute call on a
bare-name receiver records receiver-dot-attribute, not the final
attribute name alone — so the recorded set is not the claimed set of a
and c. -/
theorem c2_attribute_callee_counterexample :
    lookupSetMap (cgVisitStmts cgInit msC2).call_graph "f" = ["a", "b.c"]
    ∧ "c" ∉ lookupSetMap (cgVisitStmts cgInit msC2).call_graph "f"
    ∧ ¬(∀ x, x ∈ lookupSetMap (cgVisitStmts cgInit msC2).call_graph "f"
          ↔ (x = "a" ∨ x = "c")) := by
  refine ⟨by decide, by decide, fun h => ?_⟩
  have := (h "b.c").mp (by decide)
  simp at this

/-- C2 amended: for every function f whose body contains exactly the
literal call expressions a() and b.c() (b a bare name), the call-graph
bundle's callee set recorded for f equals the set of a and b.c: a call
on a bare-name receiver contributes receiver.attr, and only a call on a
complex receiver contributes the final attribute name alone. -/
theorem c2_callee_set_amended (fname : String) (l0 l1 l2 : Nat)
    (doc : Option String) (src : String) :
    (extract_call_relationships (.ok
        [.funcDef fname [] []
          [.exprStmt (.call (.name "a") [] 0 l1) l1,
           .exprStmt (.call (.attribute (.name "b") "c") [] 0 l2) l2]
          false l0 doc src])).relationships
      = [⟨fname, ["a", "b.c"], 2, 2⟩]
    ∧ ∀ x, (x ∈ ["a", "b.c"] ↔ (x = "a" ∨ x = "b.c")) := by
  constructor
  · simp [extract_call_relationships, cgVisitStmts, cgVisitStmt, cgVisitExprs,
      cgVisitExpr, cgRecordCall, extract_call_info, get_qualified_name, cgInit,
      addToSetMap, addNew, dictInsert, Relationship.mk.injEq]
  · intro x; simp

/-- Fixture for C3: class A with method m calling helper(), and
top-level function helper. -/
def msC3 : List PyStmt :=
  [.classDef "A"
    [.funcDef "m" [⟨"self", none⟩] []
      [.ret (some (.call (.name "helper") [] 0 2)) 2] false 2 none "srcm"] 1,
   .funcDef "helper" [] [] [.ret (some (.constant "1" "int")) 4] false 4 none "srch"]

/-- The call patterns of the C3 fixture bundle (success, so present). -/
def c3patterns : CallPatterns :=
  ((extract_call_relationships (.ok msC3)).callPatterns).getD ⟨[], [], [], []⟩

/-- C3 counterexample: on the fixture, A.m never appears as a callee, so
A.m is listed in callPatterns.isolatedFunctions — the claim that neither
helper nor A.m appears there is false. -/
theorem c3_isolated_counterexample :
    "A.m" ∈ c3patterns.isolatedFunctions
    ∧ ¬(lookupSetMap (cgVisitStmts cgInit msC3).call_graph "A.m" = ["helper"]
        ∧ "helper" ∉ c3patterns.isolatedFunctions
        ∧ "A.m" ∉ c3patterns.isolatedFunctions) := by
  refine ⟨by decide, fun h => h.2.2 (by decide)⟩

/-- C3 amended: on the fixture, the call graph contains the edge from
A.m to helper and helper is not isolated, but A.m — defined and never
appearing as any callee — is listed in callPatterns.isolatedFunctions. -/
theorem c3_call_edge_and_isolation :
    lookupSetMap (cgVisitStmts cgInit msC3).call_graph "A.m" = ["helper"]
    ∧ "helper" ∉ c3patterns.isolatedFunctions
    ∧ c3patterns.isolatedFunctions = ["A.m"] := by
  decide

/-- C4: the call-graph and data-flow extraction entry points are total
over the parse outcome (the try/except converts the only raisable step,
ast.parse, into an explicit failure record): a successful parse always
yields extractionStatus success with no error, a parse failure always
yields extractionStatus failed carrying the raised message — never an
empty result without an explicit status. -/
theorem c4_extraction_status_total (pr : Except String (List PyStmt)) :
    ((extract_call_relationships pr).extractionStatus,
      (extract_call_relationships pr).error,
      (extract_data_flows pr).extractionStatus,
      (extract_data_flows pr).error)
    = match pr with
      | .ok _ => ("success", none, "success", none)
      | .error e => ("failed", some e, "failed", some e) := by
  cases pr <;> rfl

/-! ## Monotonicity of the DataFlowAnalyzer traversal

The visitor only appends flow records and only adds dependencies, and
every visitor restores the function and class context it changes. -/

theorem dfRecordParams_spec (fn : String) (line : Nat) (args : List PyArg)
    (st : DFState) :
    (dfRecordParams st fn line args).currentFunction = st.currentFunction
    ∧ (dfRecordParams st fn line args).currentClass = st.currentClass
    ∧ (dfRecordParams st fn line args).data_dependencies = st.data_dependencies
    ∧ ∃ l, (dfRecordParams st fn line args).data_flows = st.data_flows ++ l := by
  induction args generalizing st with
  | nil => exact ⟨rfl, rfl, rfl, [], by simp [dfRecordParams]⟩
  | cons a rest ih =>
      obtain ⟨h1, h2, h3, l, h4⟩ := ih
        { st with
          function_variables :=
            setFuncVar st.function_variables fn a.arg
              (.parameter fn line (extract_type_annot a.ann))
          data_flows := st.data_flows ++ [.parameterInput fn a.arg line] }
      refine ⟨by simpa [dfRecordParams] using h1, by simpa [dfRecordParams] using h2,
        by simpa [dfRecordParams] using h3,
        [DataFlowRec.parameterInput fn a.arg line] ++ l, ?_⟩
      simp only [dfRecordParams]
      rw [h4]
      simp

theorem dfAssignTarget_spec (st : DFState) (fn : String) (vs : ValueSource)
    (line : Nat) (t : PyExpr) :
    (dfAssignTarget st fn vs line t).currentFunction = st.currentFunction
    ∧ (dfAssignTarget st fn vs line t).currentClass = st.currentClass
    ∧ (∀ k v, v ∈ lookupSetMap st.data_dependencies k →
        v ∈ lookupSetMap (dfAssignTarget st fn vs line t).data_dependencies k)
    ∧ ∃ l, (dfAssignTarget st fn vs line t).data_flows = st.data_flows ++ l := by
  cases t
  case name var =>
    refine ⟨rfl, rfl, fun k v h => ?_, [.assignment fn var vs line],
      by simp [dfAssignTarget]⟩
    cases vs <;>
      simp [dfAssignTarget, dfAssignDeps, h, lookupSetMap_addToSetMap_mono]
  all_goals exact ⟨rfl, rfl, fun k v h => by simpa [dfAssignTarget] using h,
    [], by simp [dfAssignTarget]⟩

theorem dfAssignTargets_spec (st : DFState) (fn : String) (vs : ValueSource)
    (line : Nat) (ts : List PyExpr) :
    (dfAssignTargets st fn vs line ts).currentFunction = st.currentFunction
    ∧ (dfAssignTargets st fn vs line ts).currentClass = st.currentClass
    ∧ (∀ k v, v ∈ lookupSetMap st.data_dependencies k →
        v ∈ lookupSetMap (dfAssignTargets st fn vs line ts).data_dependencies k)
    ∧ (∀ r ∈ st.data_flows, r ∈ (dfAssignTargets st fn vs line ts).data_flows) := by
  induction ts generalizing st with
  | nil => exact ⟨rfl, rfl, fun k v h => by simpa [dfAssignTargets] using h,
      fun r h => by simpa [dfAssignTargets] using h⟩
  | cons t ts ih =>
      obtain ⟨g1, g2, g3, l, g4⟩ := dfAssignTarget_spec st fn vs line t
      obtain ⟨h1, h2, h3, h4⟩ := ih (dfAssignTarget st fn vs line t)
      refine ⟨by simpa [dfAssignTargets] using h1.trans g1,
        by simpa [dfAssignTargets] using h2.trans g2, fun k v h => ?_, fun r h => ?_⟩
      · simpa [dfAssignTargets] using h3 k v (g3 k v h)
      · have hr : r ∈ (dfAssignTarget st fn vs line t).data_flows := by
          rw [g4]; exact List.mem_append_left _ h
        simpa [dfAssignTargets] using h4 r hr

theorem dfVisit_mono (st : DFState) (ms : List PyStmt) :
    ((dfVisitStmts st ms).currentFunction = st.currentFunction
      ∧ (dfVisitStmts st ms).currentClass = st.currentClass)
    ∧ (∀ k v, v ∈ lookupSetMap st.data_dependencies k →
        v ∈ lookupSetMap (dfVisitStmts st ms).data_dependencies k)
    ∧ (∀ r ∈ st.data_flows, r ∈ (dfVisitStmts st ms).data_flows) := by
  refine dfVisitStmts.induct
    (fun st s =>
      ((dfVisitStmt st s).currentFunction = st.currentFunction
        ∧ (dfVisitStmt st s).currentClass = st.currentClass)
      ∧ (∀ k v, v ∈ lookupSetMap st.data_dependencies k →
          v ∈ lookupSetMap (dfVisitStmt st s).data_dependencies k)
      ∧ (∀ r ∈ st.data_flows, r ∈ (dfVisitStmt st s).data_flows))
    (fun st ms =>
      ((dfVisitStmts st ms).currentFunction = st.currentFunction
        ∧ (dfVisitStmts st ms).currentClass = st.currentClass)
      ∧ (∀ k v, v ∈ lookupSetMap st.data_dependencies k →
          v ∈ lookupSetMap (dfVisitStmts st ms).data_dependencies k)
      ∧ (∀ r ∈ st.data_flows, r ∈ (dfVisitStmts st ms).data_flows))
    ?_ ?_ ?_ ?_ ?_ ?_ ?_ ?_ ?_ ?_ ?_ st ms
  · intro st n b line st1 ih
    rw [show st1 = { st with currentClass := some n } from rfl] at ih
    obtain ⟨⟨i1, _⟩, i3, i4⟩ := ih
    exact ⟨⟨by simpa [dfVisitStmt] using i1, by simp [dfVisitStmt]⟩,
      fun k v h => by simpa [dfVisitStmt] using i3 k v h,
      fun r h => by simpa [dfVisitStmt] using i4 r h⟩
  · intro st n args decs b isAsync line doc src fn st1 st2 ih
    rw [show st2 = dfRecordParams st1 fn line args from rfl,
      show st1 = { st with currentFunction := some fn } from rfl,
      show fn = get_qualified_name st.currentClass n from rfl] at ih
    obtain ⟨⟨_, i2⟩, i3, i4⟩ := ih
    obtain ⟨p1, p2, p3, l, p4⟩ := dfRecordParams_spec
      (get_qualified_name st.currentClass n) line args
      { st with currentFunction := some (get_qualified_name st.currentClass n) }
    refine ⟨⟨by simp [dfVisitStmt], by simpa [dfVisitStmt] using i2.trans p2⟩,
      fun k v h => ?_, fun r h => ?_⟩
    · have hv := i3 k v (by rw [p3]; exact h)
      simpa [dfVisitStmt] using hv
    · have hr := i4 r (by rw [p4]; exact List.mem_append_left _ h)
      simpa [dfVisitStmt] using hr
  · intro st targets value line hcf
    simp [dfVisitStmt, hcf]
  · intro st targets value line cf hcf
    obtain ⟨h1, h2, h3, h4⟩ := dfAssignTargets_spec st cf (analyze_value_source value) line targets
    exact ⟨⟨by simp [dfVisitStmt, hcf, h1], by simp [dfVisitStmt, hcf, h2]⟩,
      fun k v h => by simpa [dfVisitStmt, hcf] using h3 k v h,
      fun r h => by simpa [dfVisitStmt, hcf] using h4 r h⟩
  · intro st op value line fn var hcf
    refine ⟨⟨by simp [dfVisitStmt, hcf], by simp [dfVisitStmt, hcf]⟩,
      fun k v h => ?_, fun r h => by simp [dfVisitStmt, hcf]; exact Or.inl h⟩
    cases hv : analyze_value_source value <;>
      simp [dfVisitStmt, hcf, hv, lookupSetMap_addToSetMap_mono, h]
  · intro st op value line x hno
    rcases hcf : st.currentFunction with _ | fn
    · cases x <;> simp [dfVisitStmt, hcf]
    · cases x with
      | name var => exact absurd rfl (hno fn var hcf)
      | _ => simp [dfVisitStmt, hcf]
  · intro st line fn e hcf
    exact ⟨⟨by simp [dfVisitStmt, hcf], by simp [dfVisitStmt, hcf]⟩,
      fun k v h => by simpa [dfVisitStmt, hcf] using h,
      fun r h => by simp [dfVisitStmt, hcf]; exact Or.inl h⟩
  · intro st line x hno
    rcases hcf : st.currentFunction with _ | fn
    · cases x <;> simp [dfVisitStmt, hcf]
    · cases x with
      | some e => exact absurd rfl (hno fn e hcf)
      | none => simp [dfVisitStmt, hcf]
  · intro st value line
    exact ⟨⟨rfl, rfl⟩, fun k v h => by simpa [dfVisitStmt] using h,
      fun r h => by simpa [dfVisitStmt] using h⟩
  · intro st
    exact ⟨⟨rfl, rfl⟩, fun k v h => by simpa [dfVisitStmts] using h,
      fun r h => by simpa [dfVisitStmts] using h⟩
  · intro st s rest ih1 ih2
    obtain ⟨⟨a1, a2⟩, a3, a4⟩ := ih1
    obtain ⟨⟨b1, b2⟩, b3, b4⟩ := ih2
    exact ⟨⟨by simpa [dfVisitStmts] using b1.trans a1,
        by simpa [dfVisitStmts] using b2.trans a2⟩,
      fun k v h => by simpa [dfVisitStmts] using b3 k v (a3 k v h),
      fun r h => by simpa [dfVisitStmts] using b4 r (a4 r h)⟩

theorem dfVisitStmt_mono (st : DFState) (s : PyStmt) :
    ((dfVisitStmt st s).currentFunction = st.currentFunction
      ∧ (dfVisitStmt st s).currentClass = st.currentClass)
    ∧ (∀ k v, v ∈ lookupSetMap st.data_dependencies k →
        v ∈ lookupSetMap (dfVisitStmt st s).data_dependencies k)
    ∧ (∀ r ∈ st.data_flows, r ∈ (dfVisitStmt st s).data_flows) := by
  simpa [dfVisitStmts] using dfVisit_mono st [s]

theorem df_augAssign_effect (st : DFState) (fn x y op : String) (al : Nat)
    (hcf : st.currentFunction = some fn) :
    DataFlowRec.augmentedAssignment fn x op (.variable y) al
        ∈ (dfVisitStmt st (.augAssign (.name x) op (.name y) al)).data_flows
    ∧ x ∈ lookupSetMap
        (dfVisitStmt st (.augAssign (.name x) op (.name y) al)).data_dependencies x
    ∧ y ∈ lookupSetMap
        (dfVisitStmt st (.augAssign (.name x) op (.name y) al)).data_dependencies x := by
  refine ⟨by simp [dfVisitStmt, hcf, analyze_value_source], ?_, ?_⟩
  · simp [dfVisitStmt, hcf, analyze_value_source]
    exact lookupSetMap_addToSetMap_mono x y
      (lookupSetMap_addToSetMap_self st.data_dependencies x x)
  · simp [dfVisitStmt, hcf, analyze_value_source]
    exact lookupSetMap_addToSetMap_self _ x y

theorem df_body_effect (body : List PyStmt) (st : DFState) (fn x y op : String)
    (al : Nat) (hcf : st.currentFunction = some fn)
    (hmem : PyStmt.augAssign (.name x) op (.name y) al ∈ body) :
    DataFlowRec.augmentedAssignment fn x op (.variable y) al
        ∈ (dfVisitStmts st body).data_flows
    ∧ x ∈ lookupSetMap (dfVisitStmts st body).data_dependencies x
    ∧ y ∈ lookupSetMap (dfVisitStmts st body).data_dependencies x := by
  induction body generalizing st with
  | nil => simp at hmem
  | cons s rest ih =>
      rcases List.mem_cons.mp hmem with h1 | h2
      · subst h1
        obtain ⟨e1, e2, e3⟩ := df_augAssign_effect st fn x y op al hcf
        obtain ⟨_, m3, m4⟩ :=
          dfVisit_mono (dfVisitStmt st (.augAssign (.name x) op (.name y) al)) rest
        exact ⟨by simpa [dfVisitStmts] using m4 _ e1,
          by simpa [dfVisitStmts] using m3 x x e2,
          by simpa [dfVisitStmts] using m3 x y e3⟩
      · have hcf2 : (dfVisitStmt st s).currentFunction = some fn :=
          ((dfVisitStmt_mono st s).1.1).trans hcf
        obtain ⟨e1, e2, e3⟩ := ih (dfVisitStmt st s) hcf2 h2
        exact ⟨by simpa [dfVisitStmts] using e1,
          by simpa [dfVisitStmts] using e2, by simpa [dfVisitStmts] using e3⟩

theorem df_toplevel_effect (ms : List PyStmt) (st : DFState)
    (fname : String) (args : List PyArg) (decs : List PyExpr) (body : List PyStmt)
    (isAsync : Bool) (line : Nat) (doc : Option String) (src : String)
    (x y op : String) (al : Nat)
    (hcc : st.currentClass = none)
    (hf : PyStmt.funcDef fname args decs body isAsync line doc src ∈ ms)
    (ha : PyStmt.augAssign (.name x) op (.name y) al ∈ body) :
    DataFlowRec.augmentedAssignment fname x op (.variable y) al
        ∈ (dfVisitStmts st ms).data_flows
    ∧ x ∈ lookupSetMap (dfVisitStmts st ms).data_dependencies x
    ∧ y ∈ lookupSetMap (dfVisitStmts st ms).data_dependencies x := by
  induction ms generalizing st with
  | nil => simp at hf
  | cons s rest ih =>
      rcases List.mem_cons.mp hf with h1 | h2
      · subst h1
        have hqn : get_qualified_name st.currentClass fname = fname := by
          simp [get_qualified_name, hcc]
        obtain ⟨p1, p2, p3, l, p4⟩ := dfRecordParams_spec
          (get_qualified_name st.currentClass fname) line args
          { st with currentFunction := some (get_qualified_name st.currentClass fname) }
        have hcf2 : (dfRecordParams
            { st with currentFunction := some (get_qualified_name st.currentClass fname) }
            (get_qualified_name st.currentClass fname) line args).currentFunction
            = some fname := by
          rw [p1, hqn]
        obtain ⟨e1, e2, e3⟩ := df_body_effect body _ fname x y op al hcf2 ha
        obtain ⟨_, m3, m4⟩ := dfVisit_mono (dfVisitStmt st
          (.funcDef fname args decs body isAsync line doc src)) rest
        refine ⟨?_, ?_, ?_⟩
        · have he := m4 _ (show _ ∈ (dfVisitStmt st
            (.funcDef fname args decs body isAsync line doc src)).data_flows by
              simpa [dfVisitStmt] using e1)
          simpa [dfVisitStmts] using he
        · have he := m3 x x (show x ∈ lookupSetMap (dfVisitStmt st
            (.funcDef fname args decs body isAsync line doc src)).data_dependencies x by
              simpa [dfVisitStmt] using e2)
          simpa [dfVisitStmts] using he
        · have he := m3 x y (show y ∈ lookupSetMap (dfVisitStmt st
            (.funcDef fname args decs body isAsync line doc src)).data_dependencies x by
              simpa [dfVisitStmt] using e3)
          simpa [dfVisitStmts] using he
      · have hcc2 : (dfVisitStmt st s).currentClass = none :=
          ((dfVisitStmt_mono st s).1.2).trans hcc
        obtain ⟨e1, e2, e3⟩ := ih (dfVisitStmt st s) hcc2 h2
        exact ⟨by simpa [dfVisitStmts] using e1,
          by simpa [dfVisitStmts] using e2, by simpa [dfVisitStmts] using e3⟩

/-- C8: for every module containing a top-level function whose body
contains a simple-name augmented assignment from a variable reference,
the data-flow analysis records an augmented-assignment flow event for
the target, and the dependency set of the target includes both the
target itself and the right-hand variable. -/
theorem c8_aug_assign_dependency (ms : List PyStmt)
    (fname : String) (args : List PyArg) (decs : List PyExpr) (body : List PyStmt)
    (isAsync : Bool) (line : Nat) (doc : Option String) (src : String)
    (x y op : String) (al : Nat)
    (hf : PyStmt.funcDef fname args decs body isAsync line doc src ∈ ms)
    (ha : PyStmt.augAssign (.name x) op (.name y) al ∈ body) :
    DataFlowRec.augmentedAssignment fname x op (.variable y) al
        ∈ (extract_data_flows (.ok ms)).flows
    ∧ x ∈ lookupSetMap (extract_data_flows (.ok ms)).dataDependencies x
    ∧ y ∈ lookupSetMap (extract_data_flows (.ok ms)).dataDependencies x := by
  obtain ⟨e1, e2, e3⟩ := df_toplevel_effect ms dfInit fname args decs body isAsync
    line doc src x y op al rfl hf ha
  exact ⟨by simpa [extract_data_flows] using e1,
    by simpa [extract_data_flows] using e2,
    by simpa [extract_data_flows] using e3⟩

/-- Fixture for the C8 witness: x = 1 then x += y inside function g. -/
def ms8 : List PyStmt :=
  [.funcDef "g" [] []
    [.assign [.name "x"] (.constant "1" "int") 2,
     .augAssign (.name "x") "Add" (.name "y") 3] false 1 none "srcg"]

/-- C8 witness: on the concrete fixture, the augmented-assignment flow
record is present and the dependency set of x contains x and y. -/
theorem c8_aug_assign_dependency_witness :
    DataFlowRec.augmentedAssignment "g" "x" "Add" (.variable "y") 3
        ∈ (extract_data_flows (.ok ms8)).flows
    ∧ "x" ∈ lookupSetMap (extract_data_flows (.ok ms8)).dataDependencies "x"
    ∧ "y" ∈ lookupSetMap (extract_data_flows (.ok ms8)).dataDependencies "x" :=
  c8_aug_assign_dependency ms8 "g" [] []
    [.assign [.name "x"] (.constant "1" "int") 2,
     .augAssign (.name "x") "Add" (.name "y") 3] false 1 none "srcg"
    "x" "y" "Add" 3 (by simp [ms8]) (by simp)

/-- The ASCII byte string of a source text. -/
def asciiBytes (s : String) : List Nat := s.toList.map Char.toNat

/-- Concrete oracle bundle for the C1 run: ast.parse raises the usual
invalid-syntax message on every input (the file under test is the
malformed def f with an unclosed parenthesis), the error-tolerant side
channels would report errors, and no external tool binary is
installed. -/
def c1Oracles : EnhancedOracles :=
  { parse := fun _ => .error "invalid syntax"
    libcstOf := fun _ => ⟨some "Syntax Error"⟩
    parsoRecover := fun _ => ⟨["syntax error at line 1"]⟩
    typeWorld := ⟨false, false, .completed 0 "" "", fun _ => .error "not json", .completed 0 "" ""⟩
    secWorld := ⟨false, false, .completed 0 "" "", none, fun _ => .error "not json",
      .completed 0 "" "", .completed 0 "" "", none, fun _ => .error "not json"⟩ }

/-- C1: the claim is right about the intended design but the code is
wrong: extract_enhanced runs the unguarded primary extract (ast.parse)
first, and neither build_enhanced_codefile nor the walker catches the
raised SyntaxError, so a file with a deliberate syntax error aborts the
whole walk — no File record is produced, the error-tolerant side channel
(whose extractor the repository ships precisely for this case) is never
reached, and the exception propagates past the per-file boundary. -/
theorem c1_syntax_error_aborts_run :
    walk_python_modules_enhanced c1Oracles
        [⟨".", [("bad.py", asciiBytes "def f(:")]⟩]
      = .error "invalid syntax"
    ∧ extract_enhanced c1Oracles (asciiBytes "def f(:") true
      = .error "invalid syntax"
    ∧ feExtract (c1Oracles.parse (asciiBytes "def f(:"))
      = .error "invalid syntax" :=
  ⟨rfl, rfl, rfl⟩

/-- Worlds for the C5 counterexample: the pyright and bandit binaries
are present but the invocation times out, against the worlds where the
binaries are absent. -/
def wTimeoutType : TypeToolsWorld :=
  ⟨true, false, .timedOut "Command pyright timed out after 120 seconds",
    fun _ => .error "not json", .completed 0 "" ""⟩

/-- Same tool world with pyright not installed. -/
def wAbsentType : TypeToolsWorld :=
  ⟨false, false, .timedOut "Command pyright timed out after 120 seconds",
    fun _ => .error "not json", .completed 0 "" ""⟩

/-- Bandit present but timing out. -/
def wTimeoutSec : SecToolsWorld :=
  ⟨true, false, .timedOut "Command bandit timed out after 120 seconds", some "",
    fun _ => .error "not json", .completed 0 "" "", .completed 0 "" "", none,
    fun _ => .error "not json"⟩

/-- Same tool world with bandit not installed. -/
def wAbsentSec : SecToolsWorld :=
  ⟨false, false, .timedOut "Command bandit timed out after 120 seconds", some "",
    fun _ => .error "not json", .completed 0 "" "", .completed 0 "" "", none,
    fun _ => .error "not json"⟩

/-- C5 counterexample: when the pyright or bandit binary is present but
the subprocess times out, the analyzer's field for that tool is None —
exactly the value used when the binary is not installed, so the failure
is not recorded as an error string and not distinguishable from
absence. -/
theorem c5_failure_indistinguishable_counterexample :
    (analyze_types wTimeoutType).pyright = none
    ∧ (analyze_types wAbsentType).pyright = none
    ∧ (analyze_security wTimeoutSec).bandit = none
    ∧ (analyze_security wAbsentSec).bandit = none :=
  ⟨rfl, rfl, rfl, rfl⟩

/-- C5 amended: only the codeql wrapper records failures as error
strings in its result object (every failure path — creation timeout,
nonzero creation exit, analysis timeout, nonzero analysis exit or
missing SARIF, output parse failure — yields an explicit error object);
the pyright and bandit wrappers return None on timeout, empty or
missing output, and parse failure, indistinguishable from the
not-installed None; and each analyzer field is computed independently,
so one tool's failure never aborts its sibling. -/
theorem c5_tool_failure_reporting_amended :
    (∀ (m : String) (a : SubprocResult) (s : Option String)
        (l : String → Except String SarifJson),
        run_codeql (.timedOut m) a s l = .failure m)
    ∧ (∀ (crc : Int) (cout cerr : String) (a : SubprocResult) (s : Option String)
        (l : String → Except String SarifJson), crc ≠ 0 →
        run_codeql (.completed crc cout cerr) a s l
          = .failure ("CodeQL database creation failed: " ++ cerr))
    ∧ (∀ (cout cerr m : String) (s : Option String)
        (l : String → Except String SarifJson),
        run_codeql (.completed 0 cout cerr) (.timedOut m) s l = .failure m)
    ∧ (∀ (cout cerr : String) (arc : Int) (aout aerr : String) (s : Option String)
        (l : String → Except String SarifJson), arc ≠ 0 →
        run_codeql (.completed 0 cout cerr) (.completed arc aout aerr) s l
          = .failure ("CodeQL analysis failed: " ++ aerr))
    ∧ (∀ (cout cerr aout aerr : String) (l : String → Except String SarifJson),
        run_codeql (.completed 0 cout cerr) (.completed 0 aout aerr) none l
          = .failure ("CodeQL analysis failed: " ++ aerr))
    ∧ (∀ (cout cerr aout aerr s em : String) (l : String → Except String SarifJson),
        l s = .error em →
        run_codeql (.completed 0 cout cerr) (.completed 0 aout aerr) (some s) l
          = .failure em)
    ∧ (∀ (m : String) (l : String → Except String PyrightJson),
        run_pyright (.timedOut m) l = none)
    ∧ (∀ (rc : Int) (err : String) (l : String → Except String PyrightJson),
        run_pyright (.completed rc "" err) l = none)
    ∧ (∀ (rc : Int) (out err em : String) (l : String → Except String PyrightJson),
        l out = .error em → run_pyright (.completed rc out err) l = none)
    ∧ (∀ (m : String) (rep : Option String) (l : String → Except String BanditJson),
        run_bandit (.timedOut m) rep l = none)
    ∧ (∀ (rc : Int) (o e : String) (l : String → Except String BanditJson),
        run_bandit (.completed rc o e) none l = none)
    ∧ (∀ (rc : Int) (o e rep em : String) (l : String → Except String BanditJson),
        l rep = .error em → run_bandit (.completed rc o e) (some rep) l = none)
    ∧ (∀ w : TypeToolsWorld,
        (analyze_types w).mypy = (if w.mypyAvailable then run_mypy w.mypyRun else none))
    ∧ (∀ w : SecToolsWorld,
        (analyze_security w).codeql
          = (if w.codeqlAvailable then
              some (run_codeql w.codeqlCreate w.codeqlAnalyze w.codeqlSarif w.codeqlLoads)
            else none)) := by
  refine ⟨fun m a s l => rfl, fun crc cout cerr a s l h => by simp [run_codeql, h],
    fun cout cerr m s l => by simp [run_codeql], ?_, ?_, ?_,
    fun m l => rfl, fun rc err l => by simp [run_pyright], ?_,
    fun m rep l => rfl, fun rc o e l => rfl, ?_,
    fun w => rfl, fun w => rfl⟩
  · intro cout cerr arc aout aerr s l h
    simp [run_codeql, h]
  · intro cout cerr aout aerr l
    simp [run_codeql]
  · intro cout cerr aout aerr s em l h
    simp [run_codeql, h]
  · intro rc out err em l h
    by_cases hout : out = "" <;> simp [run_pyright, hout, h]
  · intro rc o e rep em l h
    simp [run_bandit, h]

/-- C5 amended witness: concrete instantiations of the failure modes
with hypotheses discharged: a nonzero codeql creation exit yields the
error object, a parse failure on pyright output yields None. -/
theorem c5_tool_failure_reporting_amended_witness :
    run_codeql (.completed 1 "" "db boom") (.completed 0 "" "") none
        (fun _ => .error "not json")
      = .failure ("CodeQL database creation failed: " ++ "db boom")
    ∧ run_pyright (.completed 0 "bad json" "")
        (fun _ => .error "Expecting value") = none :=
  ⟨c5_tool_failure_reporting_amended.2.1 1 "" "db boom" (.completed 0 "" "") none
      (fun _ => .error "not json") (by decide),
    (c5_tool_failure_reporting_amended.2.2.2.2.2.2.2.2.1) 0 "bad json" ""
      "Expecting value" (fun _ => .error "Expecting value") rfl⟩

theorem utf8Events_ascii_cons (b : Nat) (rest : List Nat) (hb : b < 128) :
    utf8Events (b :: rest) = some b :: utf8Events rest := by
  rw [utf8Events.eq_def]
  simp [hb]

theorem utf8Events_ascii_append (pre rest : List Nat)
    (h : ∀ b ∈ pre, b < 128) :
    utf8Events (pre ++ rest) = pre.map some ++ utf8Events rest := by
  induction pre with
  | nil => simp
  | cons b pre ih =>
      have hb : b < 128 := h b (by simp)
      rw [List.cons_append, utf8Events_ascii_cons b (pre ++ rest) hb,
        ih (fun c hc => h c (by simp [hc]))]
      simp

theorem utf8Events_255 (post : List Nat) :
    utf8Events (255 :: post) = none :: utf8Events post := by
  rw [utf8Events.eq_def]
  simp

/-- The fixture tree for C6: a source file at the root, a non-source
file, and a source file inside a pycache directory. -/
def t6 : List FSDir :=
  [⟨".", [("a.py", [100]), ("b.txt", [101])]⟩,
   ⟨"__pycache__", [("evil.py", [102])]⟩]

/-- C6 counterexample: the walker does not skip cache directories — a
source file inside a pycache directory is emitted, unlike the
spec-worded emission — and the decode-tolerant read drops invalid bytes
(errors ignore) instead of replacing them. -/
theorem c6_cache_and_decode_counterexample :
    ("__pycache__/evil.py", "__pycache__") ∈ walkPairs t6
    ∧ ("__pycache__/evil.py", "__pycache__") ∉ walkPairsSpec t6
    ∧ walkPairs t6 ≠ walkPairsSpec t6
    ∧ decodeIgnore [100, 255, 101] = [100, 101]
    ∧ decodeIgnore [100, 255, 101] ≠ decodeReplace [100, 255, 101] := by
  refine ⟨by decide, by decide, by decide, by decide, by decide⟩

/-- C6 amended: the walker emits a (relative-path, directory-group)
pair for every file ending in the source extension including those under
cache directories (no directory is skipped), and reads each file with a
decode-error-tolerant read that never raises and drops (rather than
replaces) invalid bytes: an all-ASCII input decodes to itself, and an
invalid byte such as 255 after an ASCII prefix disappears from the
ignore-mode output exactly where replace-mode would put U+FFFD. -/
theorem c6_walker_emission_amended :
    (∀ (tree : List FSDir) (rel grp : String),
        (rel, grp) ∈ walkPairs tree
          ↔ ∃ d ∈ tree, ∃ fb ∈ d.files,
              endswith (Prod.fst fb) ".py" = true
              ∧ rel = relJoin d.root fb.1 ∧ grp = d.root)
    ∧ (∀ bs : List Nat, (∀ b ∈ bs, b < 128) → decodeIgnore bs = bs)
    ∧ (∀ (pre post : List Nat), (∀ b ∈ pre, b < 128) →
        decodeIgnore (pre ++ 255 :: post) = pre ++ decodeIgnore post
        ∧ decodeReplace (pre ++ 255 :: post) = pre ++ 65533 :: decodeReplace post) := by
  refine ⟨?_, ?_, ?_⟩
  · intro tree rel grp
    simp only [walkPairs, List.mem_flatMap, List.mem_map, List.mem_filter]
    constructor
    · rintro ⟨d, hd, ⟨f, bs⟩, ⟨hf, hpy⟩, heq⟩
      obtain ⟨h1, h2⟩ := Prod.mk.injEq .. ▸ heq
      exact ⟨d, hd, (f, bs), hf, by simpa using hpy, h1.symm, h2.symm⟩
    · rintro ⟨d, hd, ⟨f, bs⟩, hf, hpy, h1, h2⟩
      exact ⟨d, hd, (f, bs), ⟨hf, by simpa using hpy⟩, by simp [h1, h2]⟩
  · intro bs h
    have hev := utf8Events_ascii_append bs [] h
    simp only [List.append_nil] at hev
    have hnil : utf8Events [] = [] := rfl
    simp [decodeIgnore, hev, hnil, List.filterMap_map]
  · intro pre post h
    have hev := utf8Events_ascii_append pre (255 :: post) h
    rw [utf8Events_255] at hev
    constructor
    · simp [decodeIgnore, hev, List.filterMap_map]
    · have hcomp : ((fun (e : Option Nat) => e.getD 65533) ∘ some) = fun (n : Nat) => n :=
        funext fun e => rfl
      simp [decodeReplace, hev, hcomp]

/-- C6 amended witness: the amended emission applied to the concrete
fixture tree (the cache file pair is emitted), the ASCII identity at a
concrete byte string, and the dropping of a concrete invalid byte. -/
theorem c6_walker_emission_amended_witness :
    ("__pycache__/evil.py", "__pycache__") ∈ walkPairs t6
    ∧ decodeIgnore [104, 105] = [104, 105]
    ∧ decodeIgnore [100, 255, 101] = [100] ++ decodeIgnore [101] := by
  refine ⟨?_, ?_, ?_⟩
  · exact (c6_walker_emission_amended.1 t6 "__pycache__/evil.py" "__pycache__").mpr
      ⟨⟨"__pycache__", [("evil.py", [102])]⟩, by decide, ("evil.py", [102]),
        by decide, by decide, rfl, rfl⟩
  · exact c6_walker_emission_amended.2.1 [104, 105] (by decide)
  · exact (c6_walker_emission_amended.2.2 [100] [101] (by decide)).1

end Pykage
